import Mathlib

set_option maxRecDepth 8000

/-!
Verification development for the Discord chat-export content script
(`content.js`).  The script's core pipeline — bounded image caching,
message/embed extraction, the scroll-and-collect loop with its stall
heuristic, the two renderers, and the export entry points — is embedded
shallowly below.  DOM reads (mounted elements, scroll metrics, fetch
results) are supplied by explicit environments; every function of the
source that a claim depends on is translated to an executable Lean
definition keeping the source's names.
-/

namespace DiscordExport

/-! ## Configuration constants (`CONFIG`, `DEFAULT_EXPORT_OPTIONS`, cache bound) -/

structure Config where
  scrollDelay : Nat
  maxScrollAttempts : Nat
  maxNoChangeAttempts : Nat
  avatarSize : Nat
  contextMenuDelay : Nat
  highlightDuration : Nat

def CONFIG : Config :=
  { scrollDelay := 600
    maxScrollAttempts := 500
    maxNoChangeAttempts := 8
    avatarSize := 128
    contextMenuDelay := 100
    highlightDuration := 2000 }

def MAX_IMAGE_CACHE_SIZE : Nat := 200

structure ExportOptions where
  includeImages : Bool
  includeAvatars : Bool
  includeTimestamps : Bool
  includeReactions : Bool
deriving Repr, DecidableEq

def DEFAULT_EXPORT_OPTIONS : ExportOptions :=
  { includeImages := true
    includeAvatars := true
    includeTimestamps := true
    includeReactions := true }

/-- A possibly-partial options record supplied by a caller; `{ ...DEFAULT_EXPORT_OPTIONS, ...options }` in the source. -/
structure PartialOptions where
  includeImages : Option Bool := none
  includeAvatars : Option Bool := none
  includeTimestamps : Option Bool := none
  includeReactions : Option Bool := none
deriving Repr, DecidableEq

def mergeOptions (p : PartialOptions) : ExportOptions :=
  { includeImages := p.includeImages.getD DEFAULT_EXPORT_OPTIONS.includeImages
    includeAvatars := p.includeAvatars.getD DEFAULT_EXPORT_OPTIONS.includeAvatars
    includeTimestamps := p.includeTimestamps.getD DEFAULT_EXPORT_OPTIONS.includeTimestamps
    includeReactions := p.includeReactions.getD DEFAULT_EXPORT_OPTIONS.includeReactions }

/-! ## Data model

Absent string-valued DOM data is modelled as `""`, matching the source's
use of `''` defaults and JavaScript falsiness checks. -/

structure ImageRef where
  url : String
  isGif : Bool
  staticUrl : String
deriving Repr, DecidableEq

structure Reaction where
  emoji : String
  count : String
deriving Repr, DecidableEq

structure EmbedField where
  name : String
  value : String
deriving Repr, DecidableEq

/-- The embed record built by `extractEmbedData`, field-for-field. -/
structure Embed where
  title : String
  description : String
  author : String
  fields : List EmbedField
  footer : String
  thumbnail : String
  image : String
  color : String
deriving Repr, DecidableEq

structure ReplyTo where
  username : String
  content : String
deriving Repr, DecidableEq

/-- The record built by `extractMessageData`.  `images` is the source's
`data.images` (attachment list); `content` is the processed rich HTML and
`contentText` its plain-text projection. -/
structure MessageData where
  id : Option String
  username : String
  usernameColor : String
  avatar : String
  timestamp : String
  content : String
  contentText : String
  images : List ImageRef
  reactions : List Reaction
  embeds : List Embed
  replyTo : Option ReplyTo
deriving Repr, DecidableEq

instance : Inhabited MessageData :=
  ⟨{ id := none, username := "", usernameColor := "", avatar := "", timestamp := ""
     content := "", contentText := "", images := [], reactions := [], embeds := []
     replyTo := none }⟩

/-! ## Image cache (`imageCache`, `getCachedImage`)

The JavaScript `Map` keeps insertion order, so the cache is a list of
`(url, base64)` pairs with the oldest entry at the head;
`imageCache.keys().next().value` is the head's key.  The network is an
oracle: `fetched = none` models a rejected fetch / failed decode (the
source's `catch` path), `fetched = some b64` the decoded data URL. -/

abbrev ImageCache := List (String × String)

def cacheGet (c : ImageCache) (url : String) : Option String :=
  (c.find? (fun e => e.1 = url)).map (·.2)

def getCachedImage (c : ImageCache) (url : String) (fetched : Option String) :
    Option String × ImageCache :=
  if url = "" then (none, c)
  else
    match cacheGet c url with
    | some v => (some v, c)
    | none =>
      match fetched with
      | none => (none, c)
      | some b64 =>
        let c1 := if MAX_IMAGE_CACHE_SIZE ≤ c.length then c.tail else c
        (some b64, c1 ++ [(url, b64)])

/-- A sequence of resolve operations, each with its oracle fetch result. -/
def resolveSeq (c : ImageCache) (ops : List (String × Option String)) : ImageCache :=
  ops.foldl (fun c op => (getCachedImage c op.1 op.2).2) c

/-! ## Embed extraction (`extractEmbedData`)

An `EmbedBlock` is the DOM data of one embed wrapper: the computed left
border color, the trimmed text of the author / title / footer elements
(`""` when the element is missing), the processed HTML of the
description, the field elements (name element text, processed value
HTML — `none` when that element is missing), and the resolved
full-resolution thumbnail / image URLs (`""` when missing). -/

structure EmbedBlock where
  borderColor : String
  author : String
  title : String
  description : String
  fields : List (Option String × Option String)
  footer : String
  thumbnail : String
  image : String
deriving Repr, DecidableEq

def embedFieldsOf (b : EmbedBlock) : List EmbedField :=
  b.fields.filterMap (fun p =>
    if p.1.isSome || p.2.isSome then some ⟨p.1.getD "", p.2.getD ""⟩ else none)

def extractEmbedData (b : EmbedBlock) (options : ExportOptions) : Option Embed :=
  let color := if b.borderColor ≠ "" && b.borderColor ≠ "rgba(0, 0, 0, 0)" then b.borderColor else ""
  let fields := embedFieldsOf b
  let thumbnail := if options.includeImages then b.thumbnail else ""
  let image := if options.includeImages then b.image else ""
  if b.title = "" && b.description = "" && fields.isEmpty && image = "" then none
  else some
    { title := b.title, description := b.description, author := b.author
      fields := fields, footer := b.footer, thumbnail := thumbnail
      image := image, color := color }

/-! ## User context cache (`userCache`) and message extraction (`extractMessageData`)

An `ItemView` carries the DOM reads `extractMessageData` performs on one
message element: `mid` is `getMessageId`'s result; `usernameLocal` is the
trimmed text of `findUsernameElement`'s result (`""` when none — that
helper only ever returns an element with non-empty trimmed text);
`usernameColorRaw` its computed color; `prevs` are the preceding sibling
elements (nearest first) with the same reads; `avatarResolved` is the
outcome of `extractAvatar`'s avatar-URL resolution (a pure DOM lookup no
claim depends on, abstracted to its resolved URL); `contentHtml` /
`contentText` are the processed rich content and its text projection;
`images` the attachment refs built by `extractImages`; `reactions` the raw
reaction nodes read by `extractReactions`. -/

structure UserCache where
  avatars : List (String × String)
  colors : List (String × String)
  lastUsername : String
deriving Repr, DecidableEq

def emptyUserCache : UserCache := ⟨[], [], ""⟩

def setAssoc (l : List (String × String)) (k v : String) : List (String × String) :=
  if l.any (fun e => e.1 = k) then l.map (fun e => if e.1 = k then (k, v) else e)
  else l ++ [(k, v)]

def UserCache.getColor (c : UserCache) (u : String) : String :=
  ((c.colors.find? (fun e => e.1 = u)).map (·.2)).getD ""

def UserCache.setColor (c : UserCache) (u color : String) : UserCache :=
  if u ≠ "" && color ≠ "" then { c with colors := setAssoc c.colors u color } else c

/-- `if (color && color !== 'rgb(255, 255, 255)' && color !== 'rgba(0, 0, 0, 0)')`. -/
def colorOk (color : String) : Bool :=
  color ≠ "" && color ≠ "rgb(255, 255, 255)" && color ≠ "rgba(0, 0, 0, 0)"

structure PrevSibling where
  isMessage : Bool
  usernameLocal : String
  usernameColorRaw : String
deriving Repr, DecidableEq

structure RawReaction where
  emojiKey : String
  emoji : String
  count : String
deriving Repr, DecidableEq

/-- `extractReactions`' dedup by `` `${emojiKey}-${count}` `` key, keeping first. -/
def dedupReactions (rs : List RawReaction) : List Reaction :=
  (rs.foldl (fun (acc : List Reaction × List String) r =>
    let key := r.emojiKey ++ "-" ++ r.count
    if r.emoji ≠ "" && !(acc.2.contains key) then
      (acc.1 ++ [⟨r.emoji, r.count⟩], acc.2 ++ [key])
    else acc) ([], [])).1

structure ItemView where
  mid : Option String
  usernameLocal : String
  usernameColorRaw : String
  prevs : List PrevSibling
  replied : Option ReplyTo
  avatarResolved : String
  timestampRaw : String
  contentHtml : String
  contentText : String
  images : List ImageRef
  embedBlocks : List EmbedBlock
  reactions : List RawReaction
deriving Repr, DecidableEq

/-- Author fallback chain: local header username (with sentinel-filtered
color), else the cache's `lastUsername` (color from the cache), else a
backward scan of up to 10 preceding siblings for one exposing a header.
Returns the resolved `(username, usernameColor)`. -/
def resolveUsername (cache : UserCache) (item : ItemView) : String × String :=
  if item.usernameLocal ≠ "" then
    (item.usernameLocal, if colorOk item.usernameColorRaw then item.usernameColorRaw else "")
  else if cache.lastUsername ≠ "" then
    (cache.lastUsername, cache.getColor cache.lastUsername)
  else
    match (item.prevs.take 10).find? (fun p => p.isMessage && p.usernameLocal ≠ "") with
    | some p => (p.usernameLocal, if colorOk p.usernameColorRaw then p.usernameColorRaw else "")
    | none => ("", "")

def extractEmbeds (blocks : List EmbedBlock) (options : ExportOptions) : List Embed :=
  blocks.filterMap (fun b => extractEmbedData b options)

def extractMessageData (cache : UserCache) (item : ItemView) (options : ExportOptions) :
    Option MessageData × UserCache :=
  let r := resolveUsername cache item
  let username := r.1
  -- `if (data.username) { lastUsername := it; store or load the color }`
  let usernameColor :=
    if username ≠ "" then (if r.2 ≠ "" then r.2 else cache.getColor username) else r.2
  let cache' :=
    if username ≠ "" then
      UserCache.setColor { cache with lastUsername := username } username r.2
    else cache
  let avatar := if options.includeAvatars then item.avatarResolved else ""
  let timestamp := if options.includeTimestamps then item.timestampRaw else ""
  let images := if options.includeImages then item.images else []
  let embeds := extractEmbeds item.embedBlocks options
  let reactions := if options.includeReactions then dedupReactions item.reactions else []
  let d : MessageData :=
    { id := item.mid, username := username, usernameColor := usernameColor
      avatar := avatar, timestamp := timestamp, content := item.contentHtml
      contentText := item.contentText, images := images, reactions := reactions
      embeds := embeds, replyTo := item.replied }
  if item.contentHtml = "" && images.isEmpty && embeds.isEmpty && username = "" then
    (none, cache')
  else (some d, cache')

/-! ## Scroll/collection controller (`scrollAndCollectMessages`)

Each loop iteration scans the currently-mounted message elements
(`document.querySelectorAll` in document order).  A `ScanItem` is one such
element: `mid` is `getMessageId`'s result and `data` the result
`extractMessageData` produces for that element at that encounter (the
extraction itself is DOM- and cache-state-dependent, so the per-encounter
outcome is an attribute of the encounter).  `getElementById(id)` succeeds
exactly when an element with that id is mounted, and every such element
matches the message selector, so the start/end elements are located by
their first index in the scan; `compareDocumentPosition`'s FOLLOWING test
becomes an index comparison.  The store is the `collectedMessages` `Map`:
a list of `(id, record)` pairs in insertion order. -/

structure ScanItem where
  mid : Option String
  data : Option MessageData
deriving Repr, DecidableEq

abbrev Store := List (String × MessageData)

def storeHas (s : Store) (k : String) : Bool := s.any (fun e => e.1 = k)

def storeLookup (s : Store) (k : String) : Option MessageData :=
  (s.find? (fun e => e.1 = k)).map (·.2)

/-- `if (!collectedMessages.has(msgId)) { const d = extract(...); if (d) set(msgId, d); }` -/
def storeInsert (s : Store) (k : String) (d : Option MessageData) : Store :=
  if storeHas s k then s
  else
    match d with
    | some m => s ++ [(k, m)]
    | none => s

/-- Index of the first mounted element with the given message id
(`document.getElementById` over the scanned elements). -/
def idIndex (items : List ScanItem) (id : String) : Option Nat :=
  match items with
  | [] => none
  | it :: rest =>
    if it.mid = some id then some 0 else (idIndex rest id).map (· + 1)

structure ScanOut where
  store : Store
  foundStart : Bool
  foundEnd : Bool
deriving Repr, DecidableEq

/-- The per-iteration `for (const msgEl of messageArray)` loop.  `j` is the
document-order index of the head of `items`; `startIdx` / `endIdx` are the
indices of the start/end elements when mounted. -/
def processItems (startId endId : Option String) (startIdx endIdx : Option Nat) :
    List ScanItem → Nat → Store → Bool → ScanOut
  | [], _, store, fs => ⟨store, fs, false⟩
  | ⟨none, _⟩ :: rest, j, store, fs =>
    processItems startId endId startIdx endIdx rest (j + 1) store fs
  | ⟨some mid, data⟩ :: rest, j, store, fs =>
    if endId = some mid then
      -- reached the end point: include it and stop
      ⟨storeInsert store mid data, fs, true⟩
    else if (match endIdx with | some k => decide (k < j) | none => false) then
      -- current element is after the end element: stop without it
      ⟨store, fs, true⟩
    else
      match startId with
      | none =>
        processItems startId endId startIdx endIdx rest (j + 1)
          (storeInsert store mid data) fs
      | some s =>
        if mid = s then
          processItems startId endId startIdx endIdx rest (j + 1)
            (storeInsert store mid data) true
        else
          match startIdx with
          | some k =>
            if j ≤ k then processItems startId endId startIdx endIdx rest (j + 1) store fs
            else
              processItems startId endId startIdx endIdx rest (j + 1)
                (storeInsert store mid data) fs
          | none =>
            if fs then
              processItems startId endId startIdx endIdx rest (j + 1)
                (storeInsert store mid data) fs
            else processItems startId endId startIdx endIdx rest (j + 1) store fs

/-- The store entry an encounter contributes when its extraction succeeds. -/
def pairOf (it : ScanItem) : Option (String × MessageData) :=
  match it.mid, it.data with
  | some k, some d => some (k, d)
  | _, _ => none

/-- Scroll metrics around one scroll-forward step: the reads of
`scrollTop` / `scrollHeight` taken just before scrolling and the reads of
`scrollTop` / `scrollHeight` / `clientHeight` after the settle delay. -/
structure ScrollObs where
  prevTop : Int
  prevHeight : Int
  top : Int
  height : Int
  clientH : Int
deriving Repr, DecidableEq

def isAtBottom (o : ScrollObs) : Bool := decide (o.height - 50 ≤ o.top + o.clientH)

def scrollDidNotMove (o : ScrollObs) : Bool := decide ((o.top - o.prevTop).natAbs < 5)

def scrollHeightUnchanged (o : ScrollObs) : Bool := decide (o.height = o.prevHeight)

/-- The stall-counter update at the end of a loop iteration: returns the
new `noChangeCount` and whether the loop stops. -/
def stallUpdate (noChangeCount : Nat) (atBottom scrollStuck noNewMessages heightUnchanged : Bool) :
    Nat × Bool :=
  if atBottom && scrollStuck && noNewMessages && heightUnchanged then
    (noChangeCount + 1, decide (CONFIG.maxNoChangeAttempts ≤ noChangeCount + 1))
  else if scrollStuck && noNewMessages then
    (noChangeCount + 1, decide (CONFIG.maxNoChangeAttempts + 3 ≤ noChangeCount + 1))
  else (0, false)

structure IterEnv where
  items : List ScanItem
  obs : ScrollObs
deriving Repr

structure LoopOut where
  store : Store
  foundStart : Bool
  iters : Nat
  emits : List ℚ
deriving Repr

/-- Progress percent emitted at the end of a non-terminating iteration:
`Math.min(55, 20 + scrollAttempts * 35 / CONFIG.maxScrollAttempts)` with
`scrollAttempts = a + 1` on the iteration whose zero-based index is `a`. -/
def loopPct (a : Nat) : ℚ :=
  min 55 (20 + ((a : ℚ) + 1) * 35 / (CONFIG.maxScrollAttempts : ℚ))

/-- The main `while (scrollAttempts < CONFIG.maxScrollAttempts && !reachedBottom)`
loop.  `fuel` is the number of remaining permitted iterations
(initially `CONFIG.maxScrollAttempts`), `a` the zero-based index of the
next iteration; `iters` counts iterations actually executed.  Note the
source captures `prevMessageCount` after this iteration's scan and
re-reads the store size after the settle delay, with no insertion in
between. -/
def collectLoop (startId endId : Option String) (env : Nat → IterEnv) :
    Nat → Nat → Store → Bool → Nat → LoopOut
  | 0, _, store, fs, _ => ⟨store, fs, 0, []⟩
  | fuel + 1, a, store, fs, noChangeCount =>
    let e := env a
    let startIdx := startId.bind (fun s => idIndex e.items s)
    let endIdx := endId.bind (fun s => idIndex e.items s)
    let r := processItems startId endId startIdx endIdx e.items 0 store fs
    if r.foundEnd then ⟨r.store, r.foundStart, 1, []⟩
    else
      let o := e.obs
      let prevMessageCount := r.store.length
      let noNewMessages := decide (r.store.length = prevMessageCount)
      let su :=
        stallUpdate noChangeCount (isAtBottom o) (scrollDidNotMove o) noNewMessages
          (scrollHeightUnchanged o)
      if su.2 then ⟨r.store, r.foundStart, 1, []⟩
      else
        let rest := collectLoop startId endId env fuel (a + 1) r.store r.foundStart su.1
        ⟨rest.store, rest.foundStart, rest.iters + 1, loopPct a :: rest.emits⟩

/-- Scroll-to-top phase reads: `readA` is the `scrollTop` read for the
`=== 0 || |Δ| < 5` test after the reset and settle, `readB` the re-read
used in the `< 100` confirmation, `readC` the read stored into
`lastScrollTop` when the loop goes on. -/
structure TopObs where
  readA : Int
  readB : Int
  readC : Int
deriving Repr, DecidableEq

/-- Progress emissions of the scroll-to-top phase
(`Math.min(15, 5 + scrollUpAttempts)` after each non-breaking attempt). -/
def topLoop (env : Nat → TopObs) : Nat → Nat → Int → List ℚ
  | 0, _, _ => []
  | fuel + 1, a, lastScrollTop =>
    let o := env a
    if (o.readA = 0 ∨ (o.readA - lastScrollTop).natAbs < 5) ∧ o.readB < 100 then []
    else (min 15 (5 + ((a : ℚ) + 1))) :: topLoop env fuel (a + 1) o.readC

/-- The environment of one run: whether a scroller was located, the
selection boundaries, whether the start element is mounted at the initial
jump, the scroll-to-top reads, the per-iteration scans and scroll
metrics, and the elements mounted at the fallback full sweep. -/
structure RunEnv where
  scroller : Bool
  startId : Option String
  endId : Option String
  startMounted : Bool
  topInit : Int
  topEnv : Nat → TopObs
  env : Nat → IterEnv
  finalItems : List ScanItem
  options : PartialOptions

structure CollectOut where
  result : Except String (List MessageData)
  store : Store
  iters : Nat
  emits : List ℚ

/-- A run environment is well formed when every extraction outcome carries
the id of the element it was extracted from (`extractMessageData` copies
`getMessageId(messageEl)` into the record). -/
def WellFormedRun (r : RunEnv) : Prop :=
  (∀ n it m, it ∈ (r.env n).items → it.data = some m → m.id = it.mid)
  ∧ (∀ it m, it ∈ r.finalItems → it.data = some m → m.id = it.mid)

/-- The `if (startFromId && !foundStartMessage)` fallback sweep. -/
def sweepInsert (store : Store) (items : List ScanItem) : Store :=
  items.foldl (fun s it =>
    match it.mid with
    | some k => storeInsert s k it.data
    | none => s) store

def scrollAndCollectMessages (r : RunEnv) : CollectOut :=
  if r.scroller = false then ⟨.error "Could not find messages scroller", [], 0, []⟩
  else
    let preEmits : List ℚ :=
      if r.startId.isNone then 5 :: topLoop r.topEnv CONFIG.maxScrollAttempts 0 r.topInit
      else []
    let fs0 := r.startId.isNone || r.startMounted
    let lo := collectLoop r.startId r.endId r.env CONFIG.maxScrollAttempts 0 [] fs0 0
    let store :=
      if r.startId.isSome && !lo.foundStart then sweepInsert lo.store r.finalItems
      else lo.store
    ⟨.ok (store.map (·.2)), store, lo.iters, preEmits ++ lo.emits⟩

/-! ## Markdown renderer (`generateMarkdownContent`)

Each `md += ...` statement of the per-message body is one `MdBlock`; the
final document is the preamble followed by the rendered blocks in order.
`hasReplyB` is `msg.replyTo && (msg.replyTo.username || msg.replyTo.content)`
and `isSameUser` is `msg.username && msg.username === lastUsername`. -/

def hasReplyB (m : MessageData) : Bool :=
  match m.replyTo with
  | some rt => rt.username ≠ "" || rt.content ≠ ""
  | none => false

inductive MdBlock
  | reply (username content : String)
  | header (username timestamp : String)
  | content (text : String)
  | image (url : String)
  | gif (staticUrl url : String)
  | embed (e : Embed)
  | avatarLine (url : String)
  | reactions (rs : List Reaction)
  | separator
deriving Repr, DecidableEq

def mdMessageBlocks (options : ExportOptions) (lastUsername : String) (m : MessageData) :
    List MdBlock :=
  let isSameUser := m.username ≠ "" && m.username = lastUsername
  let hasReply := hasReplyB m
  (if hasReply then
      [MdBlock.reply ((m.replyTo.map (·.username)).getD "") ((m.replyTo.map (·.content)).getD "")]
    else []) ++
  (if !isSameUser || hasReply then
      [MdBlock.header m.username
        (if options.includeTimestamps && m.timestamp ≠ "" then m.timestamp else "")]
    else []) ++
  (if m.contentText ≠ "" then [MdBlock.content m.contentText] else []) ++
  (if options.includeImages && !m.images.isEmpty then
      m.images.map (fun i => if i.isGif then MdBlock.gif i.staticUrl i.url else MdBlock.image i.url)
    else []) ++
  (if !m.embeds.isEmpty then m.embeds.map MdBlock.embed else []) ++
  (if !isSameUser && options.includeAvatars && m.avatar ≠ "" then
      [MdBlock.avatarLine m.avatar]
    else []) ++
  (if options.includeReactions && !m.reactions.isEmpty then [MdBlock.reactions m.reactions]
    else []) ++
  [MdBlock.separator]

def mdBlocksAux (options : ExportOptions) : String → List MessageData → List (List MdBlock)
  | _, [] => []
  | lastUsername, m :: rest =>
    mdMessageBlocks options lastUsername m :: mdBlocksAux options m.username rest

/-- Per-message block lists of the whole document (`lastUsername` starts `''`). -/
def mdBlocks (options : ExportOptions) (messages : List MessageData) : List (List MdBlock) :=
  mdBlocksAux options "" messages

/-- Plain-text projection of an already-processed HTML fragment
(`tempDiv.textContent`); tag stripping is not observable by any claim and
is abstracted as the identity projection. -/
def textOfHtml (s : String) : String := s

def orUnknown (u : String) : String := if u = "" then "Unknown" else u

def mdRenderEmbed (e : Embed) : String :=
  "> 📎 **[Embed]**\n"
  ++ (if e.author ≠ "" then "> 👤 " ++ e.author ++ "\n" else "")
  ++ (if e.title ≠ "" then "> **" ++ e.title ++ "**\n" else "")
  ++ (if e.description ≠ "" then "> " ++ textOfHtml e.description ++ "\n" else "")
  ++ (if !e.fields.isEmpty then
        ">\n" ++ String.join (e.fields.map
          (fun f => "> • **" ++ f.name ++ "**: " ++ textOfHtml f.value ++ "\n"))
      else "")
  ++ (if e.thumbnail ≠ "" then ">\n> 🖼️ 縮圖: ![thumbnail](" ++ e.thumbnail ++ ")\n" else "")
  ++ (if e.image ≠ "" then ">\n> ![embed image](" ++ e.image ++ ")\n" else "")
  ++ (if e.footer ≠ "" then "> _" ++ e.footer ++ "_\n" else "")
  ++ "\n"

/-- Renders one block exactly as the corresponding `md +=` does.  Locale
formatting of timestamps (`toLocaleString`) is abstracted to the raw
value. -/
def mdRenderBlock : MdBlock → String
  | .reply u c => "> ↩ Replying to **" ++ orUnknown u ++ "**: " ++ c ++ "\n\n"
  | .header u t => "**" ++ orUnknown u ++ "**" ++ (if t = "" then "" else " - " ++ t) ++ "\n\n"
  | .content t => t ++ "\n\n"
  | .image url => "![image](" ++ url ++ ")\n\n"
  | .gif s u =>
    "🎬 **GIF**\n\n[![GIF預覽](" ++ s ++ ")](" ++ u ++ ")\n\n> 原始連結: " ++ u ++ "\n\n"
  | .embed e => mdRenderEmbed e
  | .avatarLine url => "> Avatar: " ++ url ++ "\n\n"
  | .reactions rs =>
    "> Reactions: "
      ++ String.intercalate " " (rs.map (fun r => r.emoji ++ " (" ++ r.count ++ ")")) ++ "\n\n"
  | .separator => "---\n\n"

def generateMarkdownContent (channelName exportedAt : String) (messages : List MessageData)
    (options : ExportOptions) : String :=
  "# " ++ channelName ++ "\n\n*Exported on " ++ exportedAt ++ "*\n\n---\n\n"
  ++ String.join ((mdBlocks options messages).map (fun bs => String.join (bs.map mdRenderBlock)))

/-! ## PDF renderer (`generatePDFContent`)

Phase 1 gathers referenced image URLs into a `Set` (insertion-ordered,
first occurrence kept); phase 2 prefetches them through `getCachedImage`
in batches of 10, emitting progress after each batch; phase 3 builds the
per-message HTML.  Each HTML fragment pushed for a message is one
`PdfPiece`; the network is the `fetch` oracle as for the image cache. -/

inductive PdfPiece
  | avatarImg (b64 : String)
  | avatarPlaceholder (initial : Char)
  | avatarSpacer
  | reply (username content : String)
  | header (username usernameColor timestamp : String)
  | content (html : String)
  | image (b64 : String)
  | gifImage (b64 url : String)
  | embed (e : Embed) (thumbB64 imgB64 : Option String)
  | reactions (rs : List Reaction)
deriving Repr, DecidableEq

/-- `(msg.username || 'U').charAt(0).toUpperCase()`. -/
def initialOf (u : String) : Char := (if u = "" then "U" else u).front.toUpper

def dedupKeepFirst (l : List String) : List String :=
  l.foldl (fun acc u => if acc.contains u then acc else acc ++ [u]) []

def collectImageUrls (messages : List MessageData) (options : ExportOptions) : List String :=
  let avatarUrls :=
    if options.includeAvatars then (messages.map (·.avatar)).filter (fun u => u ≠ "") else []
  let imageUrls :=
    if options.includeImages then
      ((messages.flatMap (·.images)).map (·.staticUrl)).filter (fun u => u ≠ "")
    else []
  let embedUrls :=
    messages.flatMap (fun m => m.embeds.flatMap (fun e =>
      (if e.thumbnail ≠ "" then [e.thumbnail] else [])
        ++ (if e.image ≠ "" then [e.image] else [])))
  dedupKeepFirst (avatarUrls ++ imageUrls ++ embedUrls)

/-- `50 + Math.floor((i / urlArray.length) * 30)`. -/
def prefetchPct (i len : Nat) : ℚ := 50 + ((30 * i) / len : Nat)

/-- Batched prefetch: processes `urls` ten at a time, threading the image
cache, emitting after each batch.  `fuel` bounds the recursion (one unit
per url is ample). -/
def prefetchLoop (fetch : String → Option String) :
    Nat → ImageCache → List String → Nat → Nat → ImageCache × List ℚ
  | 0, cache, _, _, _ => (cache, [])
  | _ + 1, cache, [], _, _ => (cache, [])
  | fuel + 1, cache, u :: rest, i, len =>
    let batch := (u :: rest).take 10
    let cache' := batch.foldl (fun c w => (getCachedImage c w (fetch w)).2) cache
    let r2 := prefetchLoop fetch fuel cache' ((u :: rest).drop 10) (i + 10) len
    (r2.1, prefetchPct i len :: r2.2)

/-- `80 + Math.floor((i / totalMessages) * 20)` at every `i > 0` with
`i % BATCH_SIZE === 0` during phase 3. -/
def phase3Emits (total : Nat) : List ℚ :=
  ((List.range total).filter (fun i => decide (0 < i) && decide (i % 50 = 0))).map
    (fun i => (80 : ℚ) + ((20 * i) / total : Nat))

def pdfMessagePieces (options : ExportOptions) (cache : ImageCache) (lastUsername : String)
    (m : MessageData) : List PdfPiece :=
  let isSameUser := m.username ≠ "" && m.username = lastUsername
  let hasReply := hasReplyB m
  let showHeader := !isSameUser || hasReply
  let avatarPieces : List PdfPiece :=
    if showHeader then
      if options.includeAvatars && m.avatar ≠ "" then
        match cacheGet cache m.avatar with
        | some b => [.avatarImg b]
        | none => [.avatarPlaceholder (initialOf m.username)]
      else if options.includeAvatars then [.avatarPlaceholder (initialOf m.username)]
      else []
    else [.avatarSpacer]
  let imagePieces : List PdfPiece :=
    if options.includeImages && !m.images.isEmpty then
      m.images.filterMap (fun img =>
        match cacheGet cache img.staticUrl with
        | some b => some (if img.isGif then PdfPiece.gifImage b img.url else PdfPiece.image b)
        | none => none)
    else []
  let embedPieces : List PdfPiece :=
    m.embeds.map (fun e =>
      .embed e (if e.thumbnail ≠ "" then cacheGet cache e.thumbnail else none)
        (if e.image ≠ "" then cacheGet cache e.image else none))
  let reactionPieces : List PdfPiece :=
    if options.includeReactions && !m.reactions.isEmpty then [.reactions m.reactions] else []
  let replyPieces : List PdfPiece :=
    if hasReply then
      [.reply ((m.replyTo.map (·.username)).getD "") ((m.replyTo.map (·.content)).getD "")]
    else []
  let headerPieces : List PdfPiece :=
    if showHeader then
      [.header m.username m.usernameColor
        (if options.includeTimestamps && m.timestamp ≠ "" then m.timestamp else "")]
    else []
  avatarPieces ++ replyPieces ++ headerPieces ++ [.content m.content]
    ++ imagePieces ++ embedPieces ++ reactionPieces

def pdfPiecesAux (options : ExportOptions) (cache : ImageCache) :
    String → List MessageData → List (List PdfPiece)
  | _, [] => []
  | lastUsername, m :: rest =>
    pdfMessagePieces options cache lastUsername m :: pdfPiecesAux options cache m.username rest

def pdfPieces (options : ExportOptions) (cache : ImageCache) (messages : List MessageData) :
    List (List PdfPiece) :=
  pdfPiecesAux options cache "" messages

structure PdfGen where
  pieces : List (List PdfPiece)
  emits : List ℚ

/-! Block classifiers and the per-position header/spacer observations used
to state the header-collapsing rule. -/

def isHeaderMd : MdBlock → Bool
  | .header _ _ => true
  | _ => false

def isSepMd : MdBlock → Bool
  | .separator => true
  | _ => false

def isContentMd : MdBlock → Bool
  | .content _ => true
  | _ => false

def isHeaderPdf : PdfPiece → Bool
  | .header _ _ _ => true
  | _ => false

def isSpacerPdf : PdfPiece → Bool
  | .avatarSpacer => true
  | _ => false

/-- Whether the Markdown rendering of message `i` carries an author header. -/
def mdHeaderShown (options : ExportOptions) (messages : List MessageData) (i : Nat) : Bool :=
  ((mdBlocks options messages).getD i []).any isHeaderMd

/-- Whether the PDF rendering of message `i` carries an author header. -/
def pdfHeaderShown (options : ExportOptions) (cache : ImageCache)
    (messages : List MessageData) (i : Nat) : Bool :=
  ((pdfPieces options cache messages).getD i []).any isHeaderPdf

/-- Whether the PDF rendering of message `i` substitutes the blank avatar spacer. -/
def pdfSpacerShown (options : ExportOptions) (cache : ImageCache)
    (messages : List MessageData) (i : Nat) : Bool :=
  ((pdfPieces options cache messages).getD i []).any isSpacerPdf

/-- The cache is cleared at entry; the prefetched cache feeds phase 3 and
is cleared again at exit (so it is render-scoped and discarded here). -/
def generatePDFContent (fetch : String → Option String) (messages : List MessageData)
    (options : ExportOptions) : PdfGen :=
  let urls := collectImageUrls messages options
  let pre := prefetchLoop fetch urls.length [] urls 0 urls.length
  ⟨pdfPieces options pre.1 messages, pre.2 ++ phase3Emits messages.length⟩

/-! ## Export entry points (`exportToPDF`, `exportToMarkdown`)

Both wrap the pipeline in `try/catch` and return a structured result;
the second component is the sequence of percents sent to the progress
sink (`chrome.runtime.sendMessage progressUpdate`) over the run. -/

inductive ExportResult
  | ok (messageCount : Nat)
  | err (error : String)
deriving Repr, DecidableEq

def exportToMarkdown (r : RunEnv) : ExportResult × List ℚ :=
  let c := scrollAndCollectMessages r
  match c.result with
  | .error e => (.err e, [10] ++ c.emits)
  | .ok messages =>
    if messages.length = 0 then (.err "No messages found to export", [10] ++ c.emits)
    else (.ok messages.length, [10] ++ c.emits ++ [70, 90])

def exportToPDF (fetch : String → Option String) (r : RunEnv) : ExportResult × List ℚ :=
  let c := scrollAndCollectMessages r
  match c.result with
  | .error e => (.err e, [10] ++ c.emits)
  | .ok messages =>
    if messages.length = 0 then (.err "No messages found to export", [10] ++ c.emits)
    else
      let g := generatePDFContent fetch messages (mergeOptions r.options)
      (.ok messages.length, [10] ++ c.emits ++ [60] ++ g.emits ++ [90])

/-! ## Concrete instances used by counterexamples and witnesses -/

/-- A full cache of 200 distinct keys. -/
def c200 : ImageCache := (List.range 200).map (fun n => (Nat.repr n, "v"))

/-- A run environment in which no scroller is located. -/
def emptyRunEnv : RunEnv :=
  { scroller := false, startId := none, endId := none, startMounted := false
    topInit := 0, topEnv := fun _ => ⟨0, 0, 0⟩
    env := fun _ => ⟨[], ⟨0, 0, 0, 0, 0⟩⟩, finalItems := [], options := {} }

def msgA : MessageData :=
  { (default : MessageData) with
    id := some "chat-messages-a", username := "alice", content := "hi", contentText := "hi" }

/-- A run that stops at iteration 0 by meeting the end boundary, collecting one message. -/
def endEnv : RunEnv :=
  { scroller := true, startId := none, endId := some "chat-messages-a", startMounted := false
    topInit := 0, topEnv := fun _ => ⟨0, 0, 0⟩
    env := fun _ => ⟨[⟨some "chat-messages-a", some msgA⟩], ⟨0, 0, 0, 0, 0⟩⟩
    finalItems := [], options := {} }

/-- An options record with images disabled (merged against defaults). -/
def optsNoImages : ExportOptions := mergeOptions { includeImages := some false }

/-- An item whose only payload is one image attachment. -/
def itemC5 : ItemView :=
  { mid := some "chat-messages-5", usernameLocal := "", usernameColorRaw := "", prevs := []
    replied := none, avatarResolved := "", timestampRaw := "", contentHtml := ""
    contentText := ""
    images := [⟨"https://cdn.discordapp.com/attachments/1/2/pic.png", false,
      "https://cdn.discordapp.com/attachments/1/2/pic.png"⟩]
    embedBlocks := [], reactions := [] }

/-- An item with no payload at all. -/
def itemDrop : ItemView :=
  { mid := some "chat-messages-6", usernameLocal := "", usernameColorRaw := "", prevs := []
    replied := none, avatarResolved := "", timestampRaw := "", contentHtml := ""
    contentText := "", images := [], embedBlocks := [], reactions := [] }

/-- An item with content but no resolvable author. -/
def itemHi : ItemView :=
  { itemDrop with mid := some "chat-messages-7", contentHtml := "hi", contentText := "hi" }

/-- The record `itemHi` extracts to. -/
def dHi : MessageData :=
  ((extractMessageData emptyUserCache itemHi DEFAULT_EXPORT_OPTIONS).1).getD default

/-- An embed block whose only payload is its image. -/
def embedImgOnly : EmbedBlock :=
  ⟨"", "", "", "", [], "", "", "https://cdn.discordapp.com/attachments/1/2/e.png"⟩

def msgB : MessageData :=
  { (default : MessageData) with
    id := some "chat-messages-b", username := "bob", content := "yo", contentText := "yo" }

def msgA2 : MessageData :=
  { msgA with id := some "chat-messages-a2", content := "second", contentText := "second" }

def msgA3 : MessageData :=
  { msgA with id := some "chat-messages-a3", content := "third", contentText := "third" }

def msgLate : MessageData :=
  { (default : MessageData) with
    id := some "chat-messages-1", username := "alice", content := "hi", contentText := "hi" }

/-- Scroll metrics under which all four stall booleans hold. -/
def stallObs : ScrollObs := ⟨100, 200, 100, 200, 200⟩

/-- A run with an end boundary whose element's extraction yields nothing. -/
def c4envNull : RunEnv :=
  { scroller := true, startId := none, endId := some "chat-messages-e", startMounted := false
    topInit := 0, topEnv := fun _ => ⟨0, 0, 0⟩
    env := fun _ => ⟨[⟨some "chat-messages-e", none⟩], ⟨100, 200, 100, 200, 200⟩⟩
    finalItems := [], options := {} }

def msgS : MessageData :=
  { (default : MessageData) with
    id := some "chat-messages-s", username := "alice", content := "s", contentText := "s" }

def msgE : MessageData :=
  { (default : MessageData) with
    id := some "chat-messages-e", username := "bob", content := "e", contentText := "e" }

/-- A run whose first scan mounts both boundary elements. -/
def c4env : RunEnv :=
  { scroller := true, startId := some "chat-messages-s", endId := some "chat-messages-e"
    startMounted := true, topInit := 0, topEnv := fun _ => ⟨0, 0, 0⟩
    env := fun _ =>
      ⟨[⟨some "chat-messages-s", some msgS⟩, ⟨some "chat-messages-e", some msgE⟩],
        ⟨100, 200, 100, 200, 200⟩⟩
    finalItems := [], options := {} }

/-- A run with only an end boundary, mounted after one ordinary message. -/
def c4envA : RunEnv :=
  { scroller := true, startId := none, endId := some "chat-messages-e", startMounted := false
    topInit := 0, topEnv := fun _ => ⟨0, 0, 0⟩
    env := fun _ =>
      ⟨[⟨some "chat-messages-s", some msgS⟩, ⟨some "chat-messages-e", some msgE⟩],
        ⟨100, 200, 100, 200, 200⟩⟩
    finalItems := [], options := {} }

/-- A run whose first scan mounts the element of id `chat-messages-1` in a
state whose extraction yields nothing, and whose later scans mount it
fully; the scroll metrics stall, so the loop stops after 8 iterations. -/
def c1env : RunEnv :=
  { scroller := true, startId := none, endId := none, startMounted := false
    topInit := 0, topEnv := fun _ => ⟨0, 0, 0⟩
    env := fun n =>
      match n with
      | 0 => ⟨[⟨some "chat-messages-1", none⟩], stallObs⟩
      | _ + 1 => ⟨[⟨some "chat-messages-1", some msgLate⟩], stallObs⟩
    finalItems := [], options := {} }

/-! ## Lemmas and claim theorems -/

lemma getCachedImage_length_le (c : ImageCache) (u : String) (f : Option String)
    (h : c.length ≤ MAX_IMAGE_CACHE_SIZE) :
    ((getCachedImage c u f).2).length ≤ MAX_IMAGE_CACHE_SIZE := by
  unfold getCachedImage
  split
  · exact h
  · split
    · exact h
    · split
      · exact h
      · simp only []
        split
        · rename_i hfull
          simp only [List.length_append, List.length_tail, List.length_cons, List.length_nil]
          simp only [MAX_IMAGE_CACHE_SIZE] at h hfull ⊢
          omega
        · rename_i hnotfull
          simp only [List.length_append, List.length_cons, List.length_nil]
          simp only [MAX_IMAGE_CACHE_SIZE, not_le] at h hnotfull ⊢
          omega

lemma resolveSeq_length_le (ops : List (String × Option String)) (c : ImageCache)
    (h : c.length ≤ MAX_IMAGE_CACHE_SIZE) :
    (resolveSeq c ops).length ≤ MAX_IMAGE_CACHE_SIZE := by
  induction ops generalizing c with
  | nil => exact h
  | cons op rest ih =>
    exact ih _ (getCachedImage_length_le c op.1 op.2 h)

/-- C3: starting empty, the image cache never exceeds 200 entries after any
sequence of resolves, and a single resolve preserves that bound; when the
cache is full, resolving a fresh key with a successful fetch evicts
exactly the first-inserted (head) entry, appending the new key at the
back (FIFO by insertion order); and a cache hit returns the stored value
with the cache — hence its order — unchanged (not LRU). -/
theorem claim_C3 :
    (∀ ops, (resolveSeq [] ops).length ≤ MAX_IMAGE_CACHE_SIZE)
    ∧ (∀ c u f, c.length ≤ MAX_IMAGE_CACHE_SIZE →
        ((getCachedImage c u f).2).length ≤ MAX_IMAGE_CACHE_SIZE)
    ∧ (∀ c u v, c.length = MAX_IMAGE_CACHE_SIZE → u ≠ "" → cacheGet c u = none →
        (getCachedImage c u (some v)).2 = c.tail ++ [(u, v)])
    ∧ (∀ c u v f, u ≠ "" → cacheGet c u = some v → getCachedImage c u f = (some v, c)) := by
  refine ⟨fun ops => resolveSeq_length_le ops [] (by simp [MAX_IMAGE_CACHE_SIZE]),
    getCachedImage_length_le, ?_, ?_⟩
  · intro c u v hlen hu hmiss
    simp [getCachedImage, hu, hmiss, hlen.ge]
  · intro c u v f hu hhit
    simp [getCachedImage, hu, hhit]

/-- Witness for C3 at concrete inputs, including the eviction of the head
of a full 200-entry cache by a 201st distinct key. -/
theorem claim_C3_witness :
    (resolveSeq [] [("u1", some "b1")]).length ≤ MAX_IMAGE_CACHE_SIZE
    ∧ ((getCachedImage [("u1", "b1")] "u2" (some "b2")).2).length ≤ MAX_IMAGE_CACHE_SIZE
    ∧ (getCachedImage c200 "zz" (some "b")).2 = c200.tail ++ [("zz", "b")]
    ∧ getCachedImage c200 "0" none = (some "v", c200) := by
  exact ⟨claim_C3.1 _, claim_C3.2.1 _ _ _ (by decide),
    claim_C3.2.2.1 _ _ _ (by decide) (by decide) (by decide),
    claim_C3.2.2.2 _ _ _ _ (by decide) (by decide)⟩

/-- C10: the image resolver is a total function of the fetch oracle (it
never throws); it returns null for an absent/empty url; on a failing
fetch/decode it returns the cache unchanged — no insertion and no
eviction — and null when the url was not already cached. -/
theorem claim_C10 :
    (∀ c f, getCachedImage c "" f = (none, c))
    ∧ (∀ c u, (getCachedImage c u none).2 = c)
    ∧ (∀ c u, cacheGet c u = none → getCachedImage c u none = (none, c)) := by
  refine ⟨fun c f => by simp [getCachedImage], ?_, ?_⟩
  · intro c u
    unfold getCachedImage
    split
    · rfl
    · split
      · rfl
      · rfl
  · intro c u hmiss
    by_cases hu : u = ""
    · subst hu; simp [getCachedImage]
    · simp [getCachedImage, hu, hmiss]

/-- Witness for C10 at concrete inputs. -/
theorem claim_C10_witness :
    getCachedImage [("u", "b")] "" none = (none, [("u", "b")])
    ∧ (getCachedImage [("u", "b")] "x" none).2 = [("u", "b")]
    ∧ getCachedImage [("u", "b")] "x" none = (none, [("u", "b")]) := by
  exact ⟨claim_C10.1 _ _, claim_C10.2.1 _ _, claim_C10.2.2 _ _ (by decide)⟩

lemma collectLoop_iters_le (startId endId : Option String) (env : Nat → IterEnv) :
    ∀ fuel a store fs nc, (collectLoop startId endId env fuel a store fs nc).iters ≤ fuel := by
  intro fuel
  induction fuel with
  | zero => intro a store fs nc; simp [collectLoop]
  | succ n ih =>
    intro a store fs nc
    rw [collectLoop]
    dsimp only
    split
    · simp
    · split
      · simp
      · simpa using Nat.succ_le_succ (ih (a + 1) _ _ _)

/-- C2: the four booleans are computed from the scroll metrics exactly as
claimed (`atBottom`: position + viewport ≥ total − 50; `scrollStuck`:
position delta < 5; `noNewMessages`: store size unchanged across the
scroll step; `heightUnchanged`: total height unchanged); if all four hold
the stall counter is incremented and the branch stops the loop exactly
when the counter reaches 8; if the four do not all hold but
`scrollStuck && noNewMessages` does, the same counter is incremented with
stopping threshold 11; otherwise the counter resets to 0; and no run
executes more than `CONFIG.maxScrollAttempts = 500` loop iterations. -/
theorem claim_C2 :
    (∀ o, isAtBottom o = decide (o.height - 50 ≤ o.top + o.clientH))
    ∧ (∀ o, scrollDidNotMove o = decide ((o.top - o.prevTop).natAbs < 5))
    ∧ (∀ o, scrollHeightUnchanged o = decide (o.height = o.prevHeight))
    ∧ (∀ c atB stuck noNew hU, (atB && stuck && noNew && hU) = true →
        stallUpdate c atB stuck noNew hU = (c + 1, decide (8 ≤ c + 1)))
    ∧ (∀ c atB stuck noNew hU, (atB && stuck && noNew && hU) = false →
        (stuck && noNew) = true →
        stallUpdate c atB stuck noNew hU = (c + 1, decide (11 ≤ c + 1)))
    ∧ (∀ c atB stuck noNew hU, (stuck && noNew) = false →
        stallUpdate c atB stuck noNew hU = (0, false))
    ∧ (∀ r, (scrollAndCollectMessages r).iters ≤ CONFIG.maxScrollAttempts) := by
  refine ⟨fun o => rfl, fun o => rfl, fun o => rfl, ?_, ?_, ?_, ?_⟩
  · intro c atB stuck noNew hU h
    cases atB <;> cases stuck <;> cases noNew <;> cases hU <;>
      simp_all [stallUpdate, CONFIG]
  · intro c atB stuck noNew hU h1 h2
    cases atB <;> cases stuck <;> cases noNew <;> cases hU <;>
      simp_all [stallUpdate, CONFIG]
  · intro c atB stuck noNew hU h
    cases atB <;> cases stuck <;> cases noNew <;> cases hU <;>
      simp_all [stallUpdate]
  · intro r
    unfold scrollAndCollectMessages
    split
    · simp
    · simpa using collectLoop_iters_le r.startId r.endId r.env CONFIG.maxScrollAttempts 0 [] _ 0

/-- Witness for C2: the stall counter at concrete values in each branch,
and the iteration bound on a concrete run. -/
theorem claim_C2_witness :
    stallUpdate 0 true true true true = (1, false)
    ∧ stallUpdate 7 true true true true = (8, true)
    ∧ stallUpdate 9 false true true false = (10, false)
    ∧ stallUpdate 10 false true true false = (11, true)
    ∧ stallUpdate 5 true false true true = (0, false)
    ∧ (scrollAndCollectMessages emptyRunEnv).iters ≤ CONFIG.maxScrollAttempts := by
  refine ⟨?_, ?_, ?_, ?_, ?_, claim_C2.2.2.2.2.2.2 emptyRunEnv⟩
  · simpa using claim_C2.2.2.2.1 0 true true true true rfl
  · simpa using claim_C2.2.2.2.1 7 true true true true rfl
  · simpa using claim_C2.2.2.2.2.1 9 false true true false rfl rfl
  · simpa using claim_C2.2.2.2.2.1 10 false true true false rfl rfl
  · simpa using claim_C2.2.2.2.2.2.1 5 true false true true rfl

/-- C8: when no scrollable list is located, both export entry points
return the structured failure with the `ContainerNotFound` message; when
collection yields zero messages they return the `EmptyResult` failure;
otherwise they return success with `messageCount` equal to the number of
collected messages.  No exception escapes: the entry points are total
functions into the structured result type. -/
theorem claim_C8 : ∀ (fetch : String → Option String) (r : RunEnv),
    (r.scroller = false →
      exportToMarkdown r = (.err "Could not find messages scroller", [10])
      ∧ exportToPDF fetch r = (.err "Could not find messages scroller", [10]))
    ∧ (∀ messages, (scrollAndCollectMessages r).result = .ok messages →
        (messages.length = 0 →
          (exportToMarkdown r).1 = .err "No messages found to export"
          ∧ (exportToPDF fetch r).1 = .err "No messages found to export")
        ∧ (messages.length ≠ 0 →
          (exportToMarkdown r).1 = .ok messages.length
          ∧ (exportToPDF fetch r).1 = .ok messages.length)) := by
  intro fetch r
  constructor
  · intro h
    have hc : scrollAndCollectMessages r
        = ⟨.error "Could not find messages scroller", [], 0, []⟩ := by
      simp [scrollAndCollectMessages, h]
    constructor <;> simp [exportToMarkdown, exportToPDF, hc]
  · intro messages h
    constructor
    · intro hz
      constructor <;> simp [exportToMarkdown, exportToPDF, h, hz]
    · intro hnz
      constructor <;> simp [exportToMarkdown, exportToPDF, h, hnz]

/-- C7 counterexample: with images disabled, an embed block whose image is
present (and title, description, fields absent) yields no embed, so
"returns no embed exactly when the block's title, description, field
list, and image are all absent" fails as stated: the block's image is not
absent, yet no embed is returned. -/
theorem claim_C7_counterexample :
    embedImgOnly.image ≠ "" ∧ extractEmbedData embedImgOnly optsNoImages = none := by
  exact ⟨by decide, rfl⟩

/-- C7 as amended: extraction returns no embed exactly when the block's
title, description and (extracted) field list are absent and the
extracted image is absent — the block's image only being extracted when
`includeImages` is enabled; author, footer, thumbnail and accent color
never rescue an embed, so an embed bearing only a footer (with any
author/thumbnail/color) yields no embed record. -/
theorem claim_C7 : ∀ (b : EmbedBlock) (options : ExportOptions),
    (extractEmbedData b options = none ↔
      (b.title = "" ∧ b.description = "" ∧ embedFieldsOf b = []
        ∧ (options.includeImages = true → b.image = "")))
    ∧ (∀ color author footer thumbnail,
        extractEmbedData ⟨color, author, "", "", [], footer, thumbnail, ""⟩ options = none) := by
  intro b options
  constructor
  · cases hoi : options.includeImages <;>
      simp [extractEmbedData, hoi, List.isEmpty_iff]
  · intro color author footer thumbnail
    cases hoi : options.includeImages <;>
      simp [extractEmbedData, hoi, embedFieldsOf]

/-- Witness for C7 at concrete inputs: a footer-only embed block yields no
embed. -/
theorem claim_C7_witness :
    extractEmbedData ⟨"", "", "", "", [], "powered by footers", "", ""⟩
      DEFAULT_EXPORT_OPTIONS = none
    ∧ extractEmbedData ⟨"rgb(1, 2, 3)", "auth", "", "", [], "", "thumb.png", ""⟩
      DEFAULT_EXPORT_OPTIONS = none := by
  exact ⟨(claim_C7 ⟨"x", "x", "x", "x", [], "x", "x", "x"⟩ DEFAULT_EXPORT_OPTIONS).2
      "" "" "powered by footers" "",
    (claim_C7 ⟨"rgb(1, 2, 3)", "auth", "", "", [], "", "thumb.png", ""⟩
      DEFAULT_EXPORT_OPTIONS).1.mpr ⟨rfl, rfl, rfl, fun _ => rfl⟩⟩

/-- C5 counterexample: with images disabled, an item whose attachment list
is non-empty (content, embeds and author all empty) is extracted to
`null`, so "any item with at least one of content/attachments/embeds/
author non-empty yields a non-null record" fails as stated. -/
theorem claim_C5_counterexample :
    itemC5.images ≠ []
    ∧ (extractMessageData emptyUserCache itemC5 optsNoImages).1 = none := by
  exact ⟨by decide, rfl⟩

/-- C5 as amended: the extractor returns null iff the item's content, its
extracted attachment list (forced empty when `includeImages` is
disabled), its extracted embed list, and its resolved author are all
empty; every record actually returned has at least one of content /
attachments / embeds / author non-empty. -/
theorem claim_C5 : ∀ (cache : UserCache) (item : ItemView) (options : ExportOptions),
    ((extractMessageData cache item options).1 = none ↔
      (item.contentHtml = "" ∧ (options.includeImages = true → item.images = [])
        ∧ extractEmbeds item.embedBlocks options = []
        ∧ (resolveUsername cache item).1 = ""))
    ∧ (∀ d, (extractMessageData cache item options).1 = some d →
        ¬(d.content = "" ∧ d.images = [] ∧ d.embeds = [] ∧ d.username = "")) := by
  intro cache item options
  constructor
  · cases hoi : options.includeImages <;>
      simp only [extractMessageData, hoi, List.isEmpty_iff, Bool.and_eq_true,
        decide_eq_true_eq, if_true, if_false, Bool.false_eq_true] <;>
      split <;> rename_i hcond <;> simp_all
  · intro d hd
    unfold extractMessageData at hd
    dsimp only at hd
    cases hoi : options.includeImages <;> rw [hoi] at hd <;>
      simp only [if_true, if_false, Bool.false_eq_true] at hd <;>
      split at hd
    · simp at hd
    · rename_i hcond
      simp only [Option.some.injEq] at hd
      subst hd
      intro hall
      exact hcond (by simp_all [List.isEmpty_iff])
    · simp at hd
    · rename_i hcond
      simp only [Option.some.injEq] at hd
      subst hd
      intro hall
      exact hcond (by simp_all [List.isEmpty_iff])

/-- Witness for C5 at concrete inputs: an all-empty item is dropped; the
record extracted from a content-only item is non-empty in the sense of
the drop rule. -/
theorem claim_C5_witness :
    (extractMessageData emptyUserCache itemDrop DEFAULT_EXPORT_OPTIONS).1 = none
    ∧ ¬(dHi.content = "" ∧ dHi.images = [] ∧ dHi.embeds = [] ∧ dHi.username = "") := by
  exact ⟨(claim_C5 emptyUserCache itemDrop DEFAULT_EXPORT_OPTIONS).1.mpr
      ⟨rfl, fun _ => rfl, rfl, rfl⟩,
    (claim_C5 emptyUserCache itemHi DEFAULT_EXPORT_OPTIONS).2 dHi rfl⟩

/-- Witness for C8: the failure results on a scroller-less run and the
success results on a run collecting one message. -/
theorem claim_C8_witness :
    (exportToMarkdown emptyRunEnv = (.err "Could not find messages scroller", [10])
      ∧ exportToPDF (fun _ => none) emptyRunEnv
        = (.err "Could not find messages scroller", [10]))
    ∧ ((exportToMarkdown endEnv).1 = .ok 1
      ∧ (exportToPDF (fun _ => none) endEnv).1 = .ok 1) := by
  refine ⟨(claim_C8 (fun _ => none) emptyRunEnv).1 rfl, ?_⟩
  have h := ((claim_C8 (fun _ => none) endEnv).2 [msgA] (by rfl)).2 (by decide)
  simpa using h

lemma any_ite_nil {α : Type} (c : Prop) [Decidable c] (l : List α) (p : α → Bool) :
    (if c then l else []).any p = (decide c && l.any p) := by
  split <;> simp_all

lemma images_map_no_header (l : List ImageRef) :
    (l.map (fun i =>
      if i.isGif then MdBlock.gif i.staticUrl i.url else MdBlock.image i.url)).any isHeaderMd
      = false := by
  rw [List.any_eq_false]
  intro x hx
  simp only [List.mem_map] at hx
  obtain ⟨y, _, rfl⟩ := hx
  cases hy : y.isGif <;> simp [isHeaderMd]

lemma mdMessageBlocks_any_header (options : ExportOptions) (last : String) (m : MessageData) :
    (mdMessageBlocks options last m).any isHeaderMd
      = (!(m.username ≠ "" && m.username = last) || hasReplyB m) := by
  unfold mdMessageBlocks
  dsimp only
  simp [List.any_append, any_ite_nil, images_map_no_header, isHeaderMd]
  rintro (⟨x, ⟨-, rfl⟩, hx⟩ | ⟨x, ⟨-, ⟨a, -, rfl⟩⟩, hx⟩) <;> simp at hx

lemma pdfImages_no_flag (cache : ImageCache) (l : List ImageRef) (p : PdfPiece → Bool)
    (h1 : ∀ b u, p (PdfPiece.gifImage b u) = false) (h2 : ∀ b, p (PdfPiece.image b) = false) :
    (l.filterMap (fun img =>
      match cacheGet cache img.staticUrl with
      | some b => some (if img.isGif then PdfPiece.gifImage b img.url else PdfPiece.image b)
      | none => none)).any p = false := by
  rw [List.any_eq_false]
  intro x hx
  simp only [List.mem_filterMap] at hx
  obtain ⟨y, _, hy⟩ := hx
  revert hy
  cases cacheGet cache y.staticUrl <;> simp
  cases y.isGif <;> simp <;> rintro rfl <;> simp [h1, h2]

lemma pdfMessagePieces_any_header (options : ExportOptions) (cache : ImageCache)
    (last : String) (m : MessageData) :
    (pdfMessagePieces options cache last m).any isHeaderPdf
      = (!(m.username ≠ "" && m.username = last) || hasReplyB m) := by
  unfold pdfMessagePieces
  dsimp only
  cases hSame : (m.username ≠ "" && m.username = last) <;> cases hReply : hasReplyB m <;>
    simp [List.any_append, any_ite_nil, isHeaderPdf, hSame, hReply,
      pdfImages_no_flag cache m.images isHeaderPdf (fun _ _ => rfl) (fun _ => rfl)]

lemma pdfMessagePieces_any_spacer (options : ExportOptions) (cache : ImageCache)
    (last : String) (m : MessageData) :
    (pdfMessagePieces options cache last m).any isSpacerPdf
      = !(!(m.username ≠ "" && m.username = last) || hasReplyB m) := by
  unfold pdfMessagePieces
  dsimp only
  cases hSame : (m.username ≠ "" && m.username = last) <;> cases hReply : hasReplyB m <;>
    simp [List.any_append, any_ite_nil, isSpacerPdf, hSame, hReply,
      pdfImages_no_flag cache m.images isSpacerPdf (fun _ _ => rfl) (fun _ => rfl)] <;>
    (intro x hx
     split at hx
     · revert hx
       cases cacheGet cache m.avatar <;> simp only [List.mem_singleton] <;> rintro rfl <;> rfl
     · split at hx
       · simp only [List.mem_singleton] at hx
         subst hx
         rfl
       · simp at hx)

lemma mdBlocksAux_getD_succ (options : ExportOptions) :
    ∀ (messages : List MessageData) (last : String) (i : Nat), i + 1 < messages.length →
      (mdBlocksAux options last messages).getD (i + 1) []
        = mdMessageBlocks options ((messages.getD i default).username)
            (messages.getD (i + 1) default) := by
  intro messages
  induction messages with
  | nil => intro last i h; simp at h
  | cons m rest ih =>
    intro last i h
    cases i with
    | zero =>
      cases rest with
      | nil => simp at h
      | cons m2 rest2 =>
        simp [mdBlocksAux, List.getD_cons_succ, List.getD_cons_zero]
    | succ n =>
      have h' : n + 1 < rest.length := by simpa using h
      simpa [mdBlocksAux, List.getD_cons_succ] using ih m.username n h'

lemma pdfPiecesAux_getD_succ (options : ExportOptions) (cache : ImageCache) :
    ∀ (messages : List MessageData) (last : String) (i : Nat), i + 1 < messages.length →
      (pdfPiecesAux options cache last messages).getD (i + 1) []
        = pdfMessagePieces options cache ((messages.getD i default).username)
            (messages.getD (i + 1) default) := by
  intro messages
  induction messages with
  | nil => intro last i h; simp at h
  | cons m rest ih =>
    intro last i h
    cases i with
    | zero =>
      cases rest with
      | nil => simp at h
      | cons m2 rest2 =>
        simp [pdfPiecesAux, List.getD_cons_succ, List.getD_cons_zero]
    | succ n =>
      have h' : n + 1 < rest.length := by simpa using h
      simpa [pdfPiecesAux, List.getD_cons_succ] using ih m.username n h'

lemma header_cond_rewrite (u prev : String) (r : Bool) :
    (!(decide (u ≠ "") && decide (u = prev)) || r)
      = (decide (u = "") || decide (u ≠ prev) || r) := by
  by_cases h1 : u = "" <;> by_cases h2 : u = prev <;> simp [h1, h2]

lemma md_img_block_count (p : MdBlock → Bool) (h1 : ∀ a b, p (MdBlock.gif a b) = false)
    (h2 : ∀ a, p (MdBlock.image a) = false) (l : List ImageRef) :
    List.countP
      (p ∘ fun i : ImageRef =>
        if i.isGif = true then MdBlock.gif i.staticUrl i.url else MdBlock.image i.url) l = 0 := by
  rw [List.countP_eq_zero]
  intro x hx
  simp only [Function.comp]
  cases hg : x.isGif <;> simp [h1, h2]

lemma md_embed_block_count (p : MdBlock → Bool) (h : ∀ e, p (MdBlock.embed e) = false)
    (l : List Embed) : List.countP p (List.map MdBlock.embed l) = 0 := by
  rw [List.countP_eq_zero]
  intro x hx
  simp only [List.mem_map] at hx
  obtain ⟨y, _, rfl⟩ := hx
  simp [h]

lemma mdMessageBlocks_countP_sep (options : ExportOptions) (last : String) (m : MessageData) :
    (mdMessageBlocks options last m).countP isSepMd = 1 := by
  unfold mdMessageBlocks
  dsimp only
  simp [List.countP_append, List.countP_cons, isSepMd,
    md_img_block_count isSepMd (fun _ _ => rfl) (fun _ => rfl),
    md_embed_block_count isSepMd (fun _ => rfl), apply_ite (List.countP isSepMd)]

lemma mdMessageBlocks_countP_header (options : ExportOptions) (last : String) (m : MessageData) :
    (mdMessageBlocks options last m).countP isHeaderMd
      = if (!(decide (m.username ≠ "") && decide (m.username = last)) || hasReplyB m) = true
          then 1 else 0 := by
  unfold mdMessageBlocks
  dsimp only
  simp [List.countP_append, List.countP_cons, isHeaderMd,
    md_img_block_count isHeaderMd (fun _ _ => rfl) (fun _ => rfl),
    md_embed_block_count isHeaderMd (fun _ => rfl), apply_ite (List.countP isHeaderMd)]

lemma mdMessageBlocks_countP_content (options : ExportOptions) (last : String) (m : MessageData) :
    (mdMessageBlocks options last m).countP isContentMd
      = if m.contentText ≠ "" then 1 else 0 := by
  unfold mdMessageBlocks
  dsimp only
  simp [List.countP_append, List.countP_cons, isContentMd,
    md_img_block_count isContentMd (fun _ _ => rfl) (fun _ => rfl),
    md_embed_block_count isContentMd (fun _ => rfl), apply_ite (List.countP isContentMd)]

/-- C6 counterexample: a record with an unresolvable (empty) author is a
real extractor output; rendering two such identical records in a row
emits the author header ("Unknown") for the second as well, although its
author does not differ from the previous item and it carries no reply
preview — so the claimed "if and only if" fails as stated, in both
renderers (and the PDF layout emits no spacer there). -/
theorem claim_C6_counterexample :
    (extractMessageData emptyUserCache itemHi DEFAULT_EXPORT_OPTIONS).1 = some dHi
    ∧ dHi.username = "" ∧ dHi.replyTo = none
    ∧ mdHeaderShown DEFAULT_EXPORT_OPTIONS [dHi, dHi] 1 = true
    ∧ pdfHeaderShown DEFAULT_EXPORT_OPTIONS [] [dHi, dHi] 1 = true
    ∧ pdfSpacerShown DEFAULT_EXPORT_OPTIONS [] [dHi, dHi] 1 = false := by
  exact ⟨rfl, rfl, rfl, rfl, rfl, rfl⟩

/-- C6 as amended: in both renderers, for every position i > 0, the author
header is emitted for message i iff message i's author is empty, or
differs from the author of message i−1, or message i carries a reply
preview; the PDF renderer substitutes the blank avatar spacer exactly
when the header is suppressed; the Markdown renderer appends its
horizontal-rule separator block once per message regardless; and three
consecutive messages with the same non-empty author and no replies
produce exactly one author-header block, three separator blocks, and
(when each has content) three content blocks.  (The document preamble
contributes one further literal rule before the messages.) -/
theorem claim_C6 :
    (∀ options messages i, i + 1 < List.length messages →
      mdHeaderShown options messages (i + 1)
        = (decide ((messages.getD (i + 1) default).username = "")
            || decide ((messages.getD (i + 1) default).username
                ≠ (messages.getD i default).username)
            || hasReplyB (messages.getD (i + 1) default)))
    ∧ (∀ options cache messages i, i + 1 < List.length messages →
      pdfHeaderShown options cache messages (i + 1)
        = (decide ((messages.getD (i + 1) default).username = "")
            || decide ((messages.getD (i + 1) default).username
                ≠ (messages.getD i default).username)
            || hasReplyB (messages.getD (i + 1) default)))
    ∧ (∀ options cache messages i, i + 1 < List.length messages →
      pdfSpacerShown options cache messages (i + 1)
        = !(pdfHeaderShown options cache messages (i + 1)))
    ∧ (∀ options last m, (mdMessageBlocks options last m).countP isSepMd = 1)
    ∧ (∀ options m1 m2 m3, m1.username = m2.username → m2.username = m3.username →
        m1.username ≠ "" → hasReplyB m1 = false → hasReplyB m2 = false → hasReplyB m3 = false →
        m1.contentText ≠ "" → m2.contentText ≠ "" → m3.contentText ≠ "" →
        ((mdBlocks options [m1, m2, m3]).flatten.countP isHeaderMd = 1
          ∧ (mdBlocks options [m1, m2, m3]).flatten.countP isSepMd = 3
          ∧ (mdBlocks options [m1, m2, m3]).flatten.countP isContentMd = 3)) := by
  refine ⟨?_, ?_, ?_, mdMessageBlocks_countP_sep, ?_⟩
  · intro options messages i h
    unfold mdHeaderShown mdBlocks
    rw [mdBlocksAux_getD_succ options messages "" i h, mdMessageBlocks_any_header]
    exact header_cond_rewrite _ _ _
  · intro options cache messages i h
    unfold pdfHeaderShown pdfPieces
    rw [pdfPiecesAux_getD_succ options cache messages "" i h, pdfMessagePieces_any_header]
    exact header_cond_rewrite _ _ _
  · intro options cache messages i h
    unfold pdfSpacerShown pdfHeaderShown pdfPieces
    rw [pdfPiecesAux_getD_succ options cache messages "" i h,
      pdfMessagePieces_any_spacer, pdfMessagePieces_any_header]
  · intro options m1 m2 m3 h12 h23 hne r1 r2 r3 c1 c2 c3
    have e2 : m2.username = m1.username := h12.symm
    have e3 : m3.username = m1.username := by rw [← h23, e2]
    have hflat : (mdBlocks options [m1, m2, m3]).flatten
        = mdMessageBlocks options "" m1 ++ (mdMessageBlocks options m1.username m2
          ++ mdMessageBlocks options m2.username m3) := by
      simp [mdBlocks, mdBlocksAux]
    rw [hflat]
    simp only [List.countP_append, mdMessageBlocks_countP_sep, mdMessageBlocks_countP_header,
      mdMessageBlocks_countP_content, e2, e3, r1, r2, r3]
    simp [hne, c1, c2, c3]

/-- Witness for C6 at concrete inputs: header suppressed for a repeated
author, shown for a changed author; spacer exactly when suppressed; and
the three-message scenario counts. -/
theorem claim_C6_witness :
    mdHeaderShown DEFAULT_EXPORT_OPTIONS [msgA, msgA2] 1 = false
    ∧ mdHeaderShown DEFAULT_EXPORT_OPTIONS [msgA, msgB] 1 = true
    ∧ pdfHeaderShown DEFAULT_EXPORT_OPTIONS [] [msgA, msgA2] 1 = false
    ∧ pdfSpacerShown DEFAULT_EXPORT_OPTIONS [] [msgA, msgA2] 1 = true
    ∧ (mdBlocks DEFAULT_EXPORT_OPTIONS [msgA, msgA2, msgA3]).flatten.countP isHeaderMd = 1
    ∧ (mdBlocks DEFAULT_EXPORT_OPTIONS [msgA, msgA2, msgA3]).flatten.countP isSepMd = 3
    ∧ (mdBlocks DEFAULT_EXPORT_OPTIONS [msgA, msgA2, msgA3]).flatten.countP isContentMd = 3 := by
  have h1 := claim_C6.1 DEFAULT_EXPORT_OPTIONS [msgA, msgA2] 0 (by decide)
  have h2 := claim_C6.1 DEFAULT_EXPORT_OPTIONS [msgA, msgB] 0 (by decide)
  have h3 := claim_C6.2.1 DEFAULT_EXPORT_OPTIONS [] [msgA, msgA2] 0 (by decide)
  have h4 := claim_C6.2.2.1 DEFAULT_EXPORT_OPTIONS [] [msgA, msgA2] 0 (by decide)
  have h5 := claim_C6.2.2.2.2 DEFAULT_EXPORT_OPTIONS msgA msgA2 msgA3 rfl rfl (by decide)
    rfl rfl rfl (by decide) (by decide) (by decide)
  refine ⟨?_, ?_, ?_, ?_, h5.1, h5.2.1, h5.2.2⟩
  · rw [h1]; decide
  · rw [h2]; decide
  · rw [h3]; decide
  · rw [h4, h3]; decide


lemma idIndex_append_not (pre rest : List ScanItem) (id : String)
    (h : ∀ it ∈ pre, it.mid ≠ some id) :
    idIndex (pre ++ rest) id = (idIndex rest id).map (· + pre.length) := by
  induction pre with
  | nil => simp
  | cons it pre' ih =>
    have hne : ¬(it.mid = some id) := h it (List.mem_cons_self _ _)
    simp only [List.cons_append, idIndex, hne, if_false, List.append_eq]
    rw [ih (fun it' hm => h it' (List.mem_cons_of_mem _ hm))]
    cases idIndex rest id <;> simp <;> omega

lemma idIndex_cons_hit (it : ScanItem) (rest : List ScanItem) (id : String)
    (h : it.mid = some id) : idIndex (it :: rest) id = some 0 := by
  simp [idIndex, h]

lemma processItems_skip (s e : String) (i j : Nat) :
    ∀ (pre rest : List ScanItem) (j0 : Nat) (store : Store) (fs : Bool),
      (∀ it ∈ pre, ∃ m, it.mid = some m ∧ m ≠ s ∧ m ≠ e) →
      j0 + pre.length ≤ i → i ≤ j →
      processItems (some s) (some e) (some i) (some j) (pre ++ rest) j0 store fs
        = processItems (some s) (some e) (some i) (some j) rest (j0 + pre.length) store fs := by
  intro pre
  induction pre with
  | nil => intro rest j0 store fs _ _ _; simp
  | cons it pre' ih =>
    intro rest j0 store fs hm hle hij
    obtain ⟨m, hmid, hms, hme⟩ := hm it (List.mem_cons_self _ _)
    obtain ⟨mid, data⟩ := it
    simp only [Option.some.injEq] at hmid
    subst hmid
    simp only [List.cons_append, List.length_cons] at hle ⊢
    rw [processItems]
    have h1 : ¬(some e = some m) := by simp [Ne.symm hme]
    have h2 : ¬(j < j0) := by omega
    have h3 : ¬(m = s) := hms
    have h4 : j0 ≤ i := by omega
    simp only [h1, if_false, h2, decide_eq_true_eq, if_neg, h3, h4, if_true]
    rw [show j0 + (pre'.length + 1) = (j0 + 1) + pre'.length by omega] at *
    exact ih rest (j0 + 1) store fs
      (fun it' hm' => hm it' (List.mem_cons_of_mem _ hm')) (by omega) hij

lemma storeHas_append (a b : Store) (k : String) :
    storeHas (a ++ b) k = (storeHas a k || storeHas b k) := by
  simp [storeHas, List.any_append]

lemma processItems_collect (s e : String) (i j : Nat) :
    ∀ (seg rest : List ScanItem) (j0 : Nat) (store : Store) (fs : Bool),
      (∀ it ∈ seg, ∃ m, it.mid = some m ∧ m ≠ s ∧ m ≠ e) →
      (seg.filterMap (·.mid)).Nodup →
      (∀ m ∈ seg.filterMap (·.mid), storeHas store m = false) →
      i < j0 → j0 + seg.length ≤ j →
      processItems (some s) (some e) (some i) (some j) (seg ++ rest) j0 store fs
        = processItems (some s) (some e) (some i) (some j) rest (j0 + seg.length)
            (store ++ seg.filterMap pairOf) fs := by
  intro seg
  induction seg with
  | nil => intro rest j0 store fs _ _ _ _ _; simp
  | cons it seg' ih =>
    intro rest j0 store fs hm hnd hfresh hlo hhi
    obtain ⟨m, hmid, hms, hme⟩ := hm it (List.mem_cons_self _ _)
    obtain ⟨mid, data⟩ := it
    simp only [Option.some.injEq] at hmid
    subst hmid
    simp only [List.cons_append, List.length_cons] at hhi ⊢
    rw [processItems]
    have h1 : ¬(some e = some m) := by simp [Ne.symm hme]
    have h2 : ¬(j < j0) := by omega
    have h3 : ¬(m = s) := hms
    have h4 : ¬(j0 ≤ i) := by omega
    simp only [h1, if_false, h2, decide_eq_true_eq, h3, h4, if_neg]
    have hhas : storeHas store m = false := by
      apply hfresh
      simp [List.filterMap_cons]
    have hmfm : (ScanItem.mk (some m) data).mid = some m := rfl
    have hpair : (∀ x ∈ seg', ¬x.mid = some m) ∧ (seg'.filterMap (·.mid)).Nodup := by
      rw [List.filterMap_cons] at hnd
      simpa [hmfm] using hnd
    have hrec : ∀ m' ∈ seg'.filterMap (·.mid),
        storeHas (storeInsert store m data) m' = false := by
      intro m' hm'
      have hne : m ≠ m' := by
        intro hcontra
        subst hcontra
        simp only [List.mem_filterMap] at hm'
        obtain ⟨x, hx, hxm⟩ := hm'
        exact hpair.1 x hx hxm
      unfold storeInsert
      rw [hhas]
      simp only [Bool.false_eq_true, if_false]
      cases data with
      | none =>
        apply hfresh
        simp [List.filterMap_cons, hm']
      | some d =>
        rw [storeHas_append]
        have hb : storeHas [(m, d)] m' = false := by
          simp [storeHas, hne]
        rw [hb]
        simp only [Bool.or_false]
        apply hfresh
        simp [List.filterMap_cons, hm']
    have hnd' : (seg'.filterMap (·.mid)).Nodup := hpair.2
    have step := ih rest (j0 + 1) (storeInsert store m data) fs
      (fun it' hm' => hm it' (List.mem_cons_of_mem _ hm')) hnd' hrec (by omega) (by omega)
    rw [step]
    congr 1
    · omega
    · unfold storeInsert
      rw [hhas]
      simp only [Bool.false_eq_true, if_false]
      cases data with
      | none => simp [List.filterMap_cons, pairOf]
      | some d => simp [List.filterMap_cons, pairOf]

lemma processItems_collect_nostart (e : String) (j : Nat) :
    ∀ (seg rest : List ScanItem) (j0 : Nat) (store : Store) (fs : Bool),
      (∀ it ∈ seg, ∃ m, it.mid = some m ∧ m ≠ e) →
      (seg.filterMap (·.mid)).Nodup →
      (∀ m ∈ seg.filterMap (·.mid), storeHas store m = false) →
      j0 + seg.length ≤ j →
      processItems none (some e) none (some j) (seg ++ rest) j0 store fs
        = processItems none (some e) none (some j) rest (j0 + seg.length)
            (store ++ seg.filterMap pairOf) fs := by
  intro seg
  induction seg with
  | nil => intro rest j0 store fs _ _ _ _; simp
  | cons it seg' ih =>
    intro rest j0 store fs hm hnd hfresh hhi
    obtain ⟨m, hmid, hme⟩ := hm it (List.mem_cons_self _ _)
    obtain ⟨mid, data⟩ := it
    simp only [Option.some.injEq] at hmid
    subst hmid
    simp only [List.cons_append, List.length_cons] at hhi ⊢
    rw [processItems]
    have h1 : ¬(some e = some m) := by simp [Ne.symm hme]
    have h2 : ¬(j < j0) := by omega
    simp only [h1, if_false, h2, decide_eq_true_eq, if_neg]
    have hhas : storeHas store m = false := by
      apply hfresh
      simp [List.filterMap_cons]
    have hmfm : (ScanItem.mk (some m) data).mid = some m := rfl
    have hpair : (∀ x ∈ seg', ¬x.mid = some m) ∧ (seg'.filterMap (·.mid)).Nodup := by
      rw [List.filterMap_cons] at hnd
      simpa [hmfm] using hnd
    have hrec : ∀ m' ∈ seg'.filterMap (·.mid),
        storeHas (storeInsert store m data) m' = false := by
      intro m' hm'
      have hne : m ≠ m' := by
        intro hcontra
        subst hcontra
        simp only [List.mem_filterMap] at hm'
        obtain ⟨x, hx, hxm⟩ := hm'
        exact hpair.1 x hx hxm
      unfold storeInsert
      rw [hhas]
      simp only [Bool.false_eq_true, if_false]
      cases data with
      | none =>
        apply hfresh
        simp [List.filterMap_cons, hm']
      | some d =>
        rw [storeHas_append]
        have hb : storeHas [(m, d)] m' = false := by
          simp [storeHas, hne]
        rw [hb]
        simp only [Bool.or_false]
        apply hfresh
        simp [List.filterMap_cons, hm']
    have step := ih rest (j0 + 1) (storeInsert store m data) fs
      (fun it' hm' => hm it' (List.mem_cons_of_mem _ hm')) hpair.2 hrec (by omega)
    rw [step]
    congr 1
    · omega
    · unfold storeInsert
      rw [hhas]
      simp only [Bool.false_eq_true, if_false]
      cases data with
      | none => simp [List.filterMap_cons, pairOf]
      | some d => simp [List.filterMap_cons, pairOf]

lemma processItems_end_hit (startId : Option String) (e : String)
    (startIdx endIdx : Option Nat) (data : Option MessageData) (rest : List ScanItem)
    (j0 : Nat) (store : Store) (fs : Bool) :
    processItems startId (some e) startIdx endIdx (⟨some e, data⟩ :: rest) j0 store fs
      = ⟨storeInsert store e data, fs, true⟩ := by
  simp [processItems]

lemma processItems_start_hit (s e : String) (i j : Nat) (data : Option MessageData)
    (rest : List ScanItem) (store : Store) (fs : Bool) (hse : s ≠ e) (hij : i ≤ j) :
    processItems (some s) (some e) (some i) (some j) (⟨some s, data⟩ :: rest) i store fs
      = processItems (some s) (some e) (some i) (some j) rest (i + 1)
          (storeInsert store s data) true := by
  rw [processItems]
  have h1 : ¬(some e = some s) := by simp [Ne.symm hse]
  have h2 : ¬(j < i) := by omega
  simp [h1, h2]

lemma filterMap_pairOf_snd (l : List ScanItem) (h : ∀ it ∈ l, it.mid.isSome) :
    (l.filterMap pairOf).map (·.2) = l.filterMap (·.data) := by
  induction l with
  | nil => simp
  | cons it rest ih =>
    obtain ⟨mid, data⟩ := it
    have hm := h _ (List.mem_cons_self _ _)
    cases mid with
    | none => simp at hm
    | some m =>
      have ihr := ih (fun it' hm' => h it' (List.mem_cons_of_mem _ hm'))
      cases data with
      | none => simpa [List.filterMap_cons, pairOf] using ihr
      | some d => simpa [List.filterMap_cons, pairOf] using ihr

lemma storeInsert_fresh (s : Store) (k : String) (d : Option MessageData)
    (h : storeHas s k = false) :
    storeInsert s k d = s ++ (match d with | some m => [(k, m)] | none => []) := by
  unfold storeInsert
  rw [h]
  cases d <;> simp

lemma pairOf_keys_sub (l : List ScanItem) :
    ∀ p ∈ l.filterMap pairOf, p.1 ∈ l.filterMap (·.mid) := by
  induction l with
  | nil => simp
  | cons it rest ih =>
    intro p hp
    obtain ⟨mid, data⟩ := it
    cases mid with
    | none =>
      cases data with
      | none =>
        simp only [List.filterMap_cons, pairOf] at hp ⊢
        exact ih p hp
      | some d =>
        simp only [List.filterMap_cons, pairOf] at hp ⊢
        exact ih p hp
    | some m =>
      cases data with
      | none =>
        simp only [List.filterMap_cons, pairOf] at hp ⊢
        exact List.mem_cons_of_mem _ (ih p hp)
      | some d =>
        simp only [List.filterMap_cons, pairOf] at hp ⊢
        cases hp with
        | head => exact List.mem_cons_self _ _
        | tail _ h => exact List.mem_cons_of_mem _ (ih p h)

lemma storeHas_filterMap_pairOf (l : List ScanItem) (k : String)
    (h : k ∉ l.filterMap (·.mid)) : storeHas (l.filterMap pairOf) k = false := by
  rw [storeHas, List.any_eq_false]
  intro p hp
  simp only [decide_eq_true_eq]
  intro hk
  exact h (hk ▸ pairOf_keys_sub l p hp)

lemma c4_scan_both (s e : String) (ds de : Option MessageData)
    (pre mids post : List ScanItem) (fs0 : Bool)
    (items : List ScanItem)
    (hitems : items = pre ++ ⟨some s, ds⟩ :: (mids ++ ⟨some e, de⟩ :: post))
    (hvalid : ∀ it ∈ items, it.mid.isSome)
    (hnd : (items.filterMap (·.mid)).Nodup) :
    processItems (some s) (some e) (idIndex items s) (idIndex items e) items 0 [] fs0
      = ⟨(ScanItem.mk (some s) ds :: (mids ++ [ScanItem.mk (some e) de])).filterMap pairOf,
          true, true⟩ := by
  subst hitems
  -- decompose the id list and derive distinctness facts
  have hfm : ((pre ++ ⟨some s, ds⟩ :: (mids ++ ⟨some e, de⟩ :: post)).filterMap (·.mid))
      = pre.filterMap (·.mid)
        ++ s :: (mids.filterMap (·.mid) ++ e :: post.filterMap (·.mid)) := by
    simp [List.filterMap_append, List.filterMap_cons]
  rw [hfm] at hnd
  have h1 := List.nodup_append.mp hnd
  have h2 := List.nodup_cons.mp h1.2.1
  have h3 := List.nodup_append.mp h2.2
  have h4 := List.nodup_cons.mp h3.2.1
  have hsE : s ≠ e := by
    intro hc
    exact h2.1 (by rw [hc]; exact List.mem_append_right _ (List.mem_cons_self _ _))
  have hsL2 : s ∉ mids.filterMap (·.mid) := fun hc =>
    h2.1 (List.mem_append_left _ hc)
  have heL2 : e ∉ mids.filterMap (·.mid) := fun hc => by
    have := h3.2.2
    exact absurd (List.mem_cons_self e _) (this hc)
  have hsL1 : s ∉ pre.filterMap (·.mid) := fun hc =>
    (h1.2.2 hc) (List.mem_cons_self _ _)
  have heL1 : e ∉ pre.filterMap (·.mid) := fun hc =>
    (h1.2.2 hc) (List.mem_cons_of_mem _ (List.mem_append_right _ (List.mem_cons_self _ _)))
  have hpreValid : ∀ it ∈ pre, it.mid.isSome :=
    fun it hm => hvalid it (List.mem_append_left _ hm)
  have hmidsValid : ∀ it ∈ mids, it.mid.isSome := fun it hm =>
    hvalid it (List.mem_append_right _ (List.mem_cons_of_mem _ (List.mem_append_left _ hm)))
  have hpreFacts : ∀ it ∈ pre, ∃ m, it.mid = some m ∧ m ≠ s ∧ m ≠ e := by
    intro it hm
    obtain ⟨m, hmid⟩ := Option.isSome_iff_exists.mp (hpreValid it hm)
    refine ⟨m, hmid, ?_, ?_⟩
    · intro hc; subst hc; exact hsL1 (List.mem_filterMap.mpr ⟨it, hm, hmid⟩)
    · intro hc; subst hc; exact heL1 (List.mem_filterMap.mpr ⟨it, hm, hmid⟩)
  have hmidsFacts : ∀ it ∈ mids, ∃ m, it.mid = some m ∧ m ≠ s ∧ m ≠ e := by
    intro it hm
    obtain ⟨m, hmid⟩ := Option.isSome_iff_exists.mp (hmidsValid it hm)
    refine ⟨m, hmid, ?_, ?_⟩
    · intro hc; subst hc; exact hsL2 (List.mem_filterMap.mpr ⟨it, hm, hmid⟩)
    · intro hc; subst hc; exact heL2 (List.mem_filterMap.mpr ⟨it, hm, hmid⟩)
  -- the boundary indices
  have hpreNe : ∀ it ∈ pre, it.mid ≠ some s := by
    intro it hm hc
    obtain ⟨m, hmid, hms, _⟩ := hpreFacts it hm
    rw [hmid] at hc
    exact hms (by simpa using hc)
  have hi : idIndex (pre ++ ⟨some s, ds⟩ :: (mids ++ ⟨some e, de⟩ :: post)) s
      = some pre.length := by
    rw [idIndex_append_not pre _ s hpreNe, idIndex_cons_hit _ _ _ rfl]
    simp [Option.map_some']
  have hassoc : pre ++ ⟨some s, ds⟩ :: (mids ++ ⟨some e, de⟩ :: post)
      = (pre ++ ⟨some s, ds⟩ :: mids) ++ ⟨some e, de⟩ :: post := by
    simp
  have hpreNeE : ∀ it ∈ pre ++ ⟨some s, ds⟩ :: mids, it.mid ≠ some e := by
    intro it hm hc
    rcases List.mem_append.mp hm with h | h
    · obtain ⟨m, hmid, _, hme⟩ := hpreFacts it h
      rw [hmid] at hc
      exact hme (by simpa using hc)
    · rcases List.mem_cons.mp h with h | h
      · rw [h] at hc
        simp only [Option.some.injEq] at hc
        exact hsE hc
      · obtain ⟨m, hmid, _, hme⟩ := hmidsFacts it h
        rw [hmid] at hc
        exact hme (by simpa using hc)
  have hj : idIndex (pre ++ ⟨some s, ds⟩ :: (mids ++ ⟨some e, de⟩ :: post)) e
      = some (pre.length + 1 + mids.length) := by
    rw [hassoc, idIndex_append_not _ _ e hpreNeE, idIndex_cons_hit _ _ _ rfl]
    simp only [Option.map_some', List.length_append, List.length_cons, Option.some.injEq]
    omega
  rw [hi, hj]
  -- walk the scan
  rw [processItems_skip s e pre.length (pre.length + 1 + mids.length) pre _ 0 [] fs0
    hpreFacts (by omega) (by omega)]
  simp only [Nat.zero_add]
  rw [processItems_start_hit s e pre.length (pre.length + 1 + mids.length) ds _ [] fs0 hsE
    (by omega)]
  have hmidsNd : (mids.filterMap (·.mid)).Nodup := h3.1
  have hfreshMids : ∀ m ∈ mids.filterMap (·.mid),
      storeHas (storeInsert [] s ds) m = false := by
    intro m hm
    have hms : m ≠ s := by
      intro hc; subst hc; exact hsL2 hm
    cases ds with
    | none => rfl
    | some d => simp [storeInsert, storeHas, Ne.symm hms]
  rw [processItems_collect s e pre.length (pre.length + 1 + mids.length) mids _ (pre.length + 1)
    (storeInsert [] s ds) true hmidsFacts hmidsNd hfreshMids (by omega) (by omega)]
  rw [show pre.length + 1 + mids.length = pre.length + 1 + mids.length from rfl]
  rw [processItems_end_hit]
  -- identify the final store
  congr 1
  have hfreshE : storeHas (storeInsert [] s ds ++ mids.filterMap pairOf) e = false := by
    rw [storeHas_append]
    have hx : storeHas (storeInsert [] s ds) e = false := by
      cases ds with
      | none => rfl
      | some d =>
        simp [storeInsert, storeHas]
        exact hsE
    have hy : storeHas (mids.filterMap pairOf) e = false :=
      storeHas_filterMap_pairOf mids e heL2
    rw [hx, hy]
    rfl
  rw [storeInsert_fresh _ _ _ hfreshE]
  cases ds <;> cases de <;>
    simp [List.filterMap_cons, List.filterMap_append, pairOf, storeInsert, storeHas]

lemma c4_scan_end (e : String) (de : Option MessageData) (pre post : List ScanItem)
    (fs0 : Bool) (items : List ScanItem)
    (hitems : items = pre ++ ⟨some e, de⟩ :: post)
    (hvalid : ∀ it ∈ items, it.mid.isSome)
    (hnd : (items.filterMap (·.mid)).Nodup) :
    processItems none (some e) none (idIndex items e) items 0 [] fs0
      = ⟨(pre ++ [ScanItem.mk (some e) de]).filterMap pairOf, fs0, true⟩ := by
  subst hitems
  have hfm : ((pre ++ ⟨some e, de⟩ :: post).filterMap (·.mid))
      = pre.filterMap (·.mid) ++ e :: post.filterMap (·.mid) := by
    simp [List.filterMap_append, List.filterMap_cons]
  rw [hfm] at hnd
  have h1 := List.nodup_append.mp hnd
  have heL1 : e ∉ pre.filterMap (·.mid) := fun hc =>
    (h1.2.2 hc) (List.mem_cons_self _ _)
  have hpreValid : ∀ it ∈ pre, it.mid.isSome :=
    fun it hm => hvalid it (List.mem_append_left _ hm)
  have hpreFacts : ∀ it ∈ pre, ∃ m, it.mid = some m ∧ m ≠ e := by
    intro it hm
    obtain ⟨m, hmid⟩ := Option.isSome_iff_exists.mp (hpreValid it hm)
    refine ⟨m, hmid, ?_⟩
    intro hc; subst hc; exact heL1 (List.mem_filterMap.mpr ⟨it, hm, hmid⟩)
  have hpreNe : ∀ it ∈ pre, it.mid ≠ some e := by
    intro it hm hc
    obtain ⟨m, hmid, hme⟩ := hpreFacts it hm
    rw [hmid] at hc
    exact hme (by simpa using hc)
  have hj : idIndex (pre ++ ⟨some e, de⟩ :: post) e = some pre.length := by
    rw [idIndex_append_not pre _ e hpreNe, idIndex_cons_hit _ _ _ rfl]
    simp [Option.map_some']
  rw [hj]
  rw [processItems_collect_nostart e pre.length pre _ 0 [] fs0 hpreFacts h1.1
    (by intro m hm; rfl) (by omega)]
  simp only [Nat.zero_add, List.nil_append]
  rw [processItems_end_hit]
  congr 1
  have hfreshE : storeHas (pre.filterMap pairOf) e = false :=
    storeHas_filterMap_pairOf pre e heL1
  rw [storeInsert_fresh _ _ _ hfreshE]
  cases de <;> simp [List.filterMap_append, List.filterMap_cons, pairOf]

lemma collectLoop_end_step (startId endId : Option String) (env : Nat → IterEnv)
    (fuel a : Nat) (store : Store) (fs : Bool) (nc : Nat) (st2 : Store) (fs2 : Bool)
    (hscan : processItems startId endId
        (startId.bind (fun x => idIndex (env a).items x))
        (endId.bind (fun x => idIndex (env a).items x)) (env a).items 0 store fs
      = ⟨st2, fs2, true⟩) :
    collectLoop startId endId env (fuel + 1) a store fs nc = ⟨st2, fs2, 1, []⟩ := by
  rw [collectLoop]
  dsimp only
  rw [hscan]
  rfl

lemma scrollAndCollect_end_step (r : RunEnv) (st2 : Store) (fs2 : Bool)
    (hs : r.scroller = true)
    (hscan : processItems r.startId r.endId
        (r.startId.bind (fun x => idIndex (r.env 0).items x))
        (r.endId.bind (fun x => idIndex (r.env 0).items x)) (r.env 0).items 0 []
        (r.startId.isNone || r.startMounted)
      = ⟨st2, fs2, true⟩)
    (hsel : (r.startId.isSome && !fs2) = false) :
    (scrollAndCollectMessages r).result = .ok (st2.map (·.2))
    ∧ (scrollAndCollectMessages r).iters = 1 := by
  have hfuel : CONFIG.maxScrollAttempts = 499 + 1 := rfl
  have hloop := collectLoop_end_step r.startId r.endId r.env 499 0 []
    (r.startId.isNone || r.startMounted) 0 st2 fs2 hscan
  unfold scrollAndCollectMessages
  rw [hs]
  simp only [Bool.true_eq_false, if_false, hfuel, hloop, hsel]
  simp

/-- C4 counterexample: the end-boundary element is encountered during the
first scan and the loop terminates immediately with no further scrolling,
but its extraction yields null, so the end item is not included in the
store — the returned sequence is empty, refuting "that item is itself
extracted and included in the store". -/
theorem claim_C4_counterexample :
    (c4envNull.env 0).items = [⟨some "chat-messages-e", none⟩]
    ∧ (scrollAndCollectMessages c4envNull).result = .ok []
    ∧ (scrollAndCollectMessages c4envNull).iters = 1 := by
  exact ⟨rfl, rfl, rfl⟩

/-- C4 as amended: when an item bearing the end boundary id is scanned,
the loop terminates immediately (one iteration, no further scrolling or
extraction) and the end item is included provided its extraction yields a
record; with no start boundary the returned sequence is exactly the
records successfully extracted from the items up to the end boundary
inclusive, in encounter order, and with both boundaries mounted in the
scan it is exactly the records successfully extracted from the items from
the start boundary to the end boundary inclusive, in encounter order
(items whose extraction yields no record are dropped, per the drop
rule). -/
theorem claim_C4 :
    (∀ (r : RunEnv) (e : String) (de : Option MessageData) (pre post : List ScanItem),
      r.scroller = true → r.startId = none → r.endId = some e →
      (r.env 0).items = pre ++ ⟨some e, de⟩ :: post →
      (∀ it ∈ (r.env 0).items, it.mid.isSome) →
      ((r.env 0).items.filterMap (·.mid)).Nodup →
      (scrollAndCollectMessages r).result
          = .ok ((pre ++ [ScanItem.mk (some e) de]).filterMap (·.data))
        ∧ (scrollAndCollectMessages r).iters = 1)
    ∧ (∀ (r : RunEnv) (s e : String) (ds de : Option MessageData)
        (pre mids post : List ScanItem),
      r.scroller = true → r.startId = some s → r.endId = some e →
      (r.env 0).items = pre ++ ⟨some s, ds⟩ :: (mids ++ ⟨some e, de⟩ :: post) →
      (∀ it ∈ (r.env 0).items, it.mid.isSome) →
      ((r.env 0).items.filterMap (·.mid)).Nodup →
      (scrollAndCollectMessages r).result
          = .ok ((ScanItem.mk (some s) ds :: (mids ++ [ScanItem.mk (some e) de])).filterMap
              (·.data))
        ∧ (scrollAndCollectMessages r).iters = 1) := by
  constructor
  · intro r e de pre post hs hstart hend hitems hvalid hnd
    have hscan := c4_scan_end e de pre post true (r.env 0).items hitems hvalid hnd
    have hvalidSeg : ∀ it ∈ pre ++ [ScanItem.mk (some e) de], it.mid.isSome := by
      intro it hm
      rcases List.mem_append.mp hm with h | h
      · exact hvalid it (hitems ▸ List.mem_append_left _ h)
      · simp only [List.mem_singleton] at h
        subst h
        rfl
    have hmain := scrollAndCollect_end_step r
      ((pre ++ [ScanItem.mk (some e) de]).filterMap pairOf) true hs
      (by rw [hstart, hend]; simpa using hscan) (by rw [hstart]; rfl)
    rw [filterMap_pairOf_snd _ hvalidSeg] at hmain
    exact hmain
  · intro r s e ds de pre mids post hs hstart hend hitems hvalid hnd
    have hscan := c4_scan_both s e ds de pre mids post r.startMounted
      (r.env 0).items hitems hvalid hnd
    have hvalidSeg : ∀ it ∈ ScanItem.mk (some s) ds :: (mids ++ [ScanItem.mk (some e) de]),
        it.mid.isSome := by
      intro it hm
      rcases List.mem_cons.mp hm with h | h
      · subst h; rfl
      · rcases List.mem_append.mp h with h2 | h2
        · exact hvalid it (hitems ▸ (List.mem_append_right _
            (List.mem_cons_of_mem _ (List.mem_append_left _ h2))))
        · simp only [List.mem_singleton] at h2
          subst h2
          rfl
    have hmain := scrollAndCollect_end_step r
      ((ScanItem.mk (some s) ds :: (mids ++ [ScanItem.mk (some e) de])).filterMap pairOf)
      true hs
      (by rw [hstart, hend]; simpa using hscan) (by simp)
    rw [filterMap_pairOf_snd _ hvalidSeg] at hmain
    exact hmain


/-- Witness for C4: a concrete run with both boundaries mounted returns
exactly the two boundary records in one iteration, and a concrete
end-only run returns the prefix through the end boundary. -/
theorem claim_C4_witness :
    ((scrollAndCollectMessages c4env).result = .ok [msgS, msgE]
      ∧ (scrollAndCollectMessages c4env).iters = 1)
    ∧ ((scrollAndCollectMessages c4envA).result = .ok [msgS, msgE]
      ∧ (scrollAndCollectMessages c4envA).iters = 1) := by
  constructor
  · have h := claim_C4.2 c4env "chat-messages-s" "chat-messages-e" (some msgS) (some msgE)
      [] [] [] rfl rfl rfl rfl (by decide) (by decide)
    simpa using h
  · have h := claim_C4.1 c4envA "chat-messages-e" (some msgE)
      [⟨some "chat-messages-s", some msgS⟩] [] rfl rfl rfl rfl (by decide) (by decide)
    simpa using h


/-! ## C9: progress-percent monotonicity and bounds -/

lemma loopPct_eq (a : Nat) : loopPct a = min 55 (20 + ((a : Nat) + 1 : ℚ) * 35 / 500) := by
  unfold loopPct
  norm_num [CONFIG]

lemma loopPct_lb (a : Nat) : 20 ≤ loopPct a := by
  rw [loopPct_eq]
  refine le_min (by norm_num) ?_
  have h0 : (0 : ℚ) ≤ (((a : Nat) : ℚ) + 1) * 35 / 500 := by positivity
  linarith

lemma loopPct_ub (a : Nat) : loopPct a ≤ 55 := by
  rw [loopPct_eq]; exact min_le_left _ _

lemma loopPct_mono (a : Nat) : loopPct a ≤ loopPct (a + 1) := by
  rw [loopPct_eq, loopPct_eq]
  refine min_le_min le_rfl ?_
  push_cast
  linarith

/-- The scroll-to-top phase emits a non-decreasing run of percents, each
between its first emission level and 15. -/
lemma topLoop_bound (env : Nat → TopObs) :
    ∀ fuel a last, List.Chain' (· ≤ ·) (topLoop env fuel a last)
      ∧ ∀ p ∈ topLoop env fuel a last,
        min (15 : ℚ) (5 + ((a : ℚ) + 1)) ≤ p ∧ p ≤ 15 := by
  intro fuel
  induction fuel with
  | zero =>
    intro a last
    exact ⟨List.chain'_nil, by intro p hp; simp [topLoop] at hp⟩
  | succ n ih =>
    intro a last
    rw [topLoop]
    split
    · exact ⟨List.chain'_nil, by intro p hp; simp at hp⟩
    · obtain ⟨ihc, ihb⟩ := ih (a + 1) (env a).readC
      have hcast : ((a + 1 : Nat) : ℚ) = (a : ℚ) + 1 := by push_cast; ring
      have hmono : min (15 : ℚ) (5 + ((a : ℚ) + 1)) ≤ min 15 (5 + (((a : ℚ) + 1) + 1)) := by
        refine min_le_min le_rfl ?_
        linarith
      constructor
      · rw [List.chain'_cons']
        refine ⟨?_, ihc⟩
        intro y hy
        have hb := ihb y (List.mem_of_mem_head? hy)
        rw [hcast] at hb
        exact le_trans hmono hb.1
      · intro p hp
        rcases List.mem_cons.mp hp with rfl | hp
        · exact ⟨le_refl _, min_le_left _ _⟩
        · have hb := ihb p hp
          rw [hcast] at hb
          exact ⟨le_trans hmono hb.1, hb.2⟩

/-- The main collection loop emits a non-decreasing run of percents, each
between its first emission level and 55. -/
lemma collectLoop_emits_bound (startId endId : Option String) (env : Nat → IterEnv) :
    ∀ fuel a store fs nc,
      List.Chain' (· ≤ ·) (collectLoop startId endId env fuel a store fs nc).emits
      ∧ ∀ p ∈ (collectLoop startId endId env fuel a store fs nc).emits,
        loopPct a ≤ p ∧ p ≤ 55 := by
  intro fuel
  induction fuel with
  | zero =>
    intro a store fs nc
    exact ⟨List.chain'_nil, by intro p hp; simp [collectLoop] at hp⟩
  | succ n ih =>
    intro a store fs nc
    rw [collectLoop]
    dsimp only
    split
    · exact ⟨List.chain'_nil, by intro p hp; simp at hp⟩
    · split
      · exact ⟨List.chain'_nil, by intro p hp; simp at hp⟩
      · obtain ⟨ihc, ihb⟩ := ih (a + 1) _ _ _
        constructor
        · rw [List.chain'_cons']
          refine ⟨?_, ihc⟩
          intro y hy
          have hb := ihb y (List.mem_of_mem_head? hy)
          exact le_trans (loopPct_mono a) hb.1
        · intro p hp
          rcases List.mem_cons.mp hp with rfl | hp
          · exact ⟨le_refl _, loopPct_ub a⟩
          · have hb := ihb p hp
            exact ⟨le_trans (loopPct_mono a) hb.1, hb.2⟩

/-- Within one collection run the emitted percents are non-decreasing and
lie in `[5, 55]`. -/
lemma collect_emits_ok (r : RunEnv) :
    List.Chain' (· ≤ ·) (scrollAndCollectMessages r).emits
    ∧ ∀ p ∈ (scrollAndCollectMessages r).emits, 5 ≤ p ∧ p ≤ 55 := by
  unfold scrollAndCollectMessages
  split
  · exact ⟨List.chain'_nil, by intro p hp; simp at hp⟩
  · dsimp only
    rw [List.chain'_append]
    have hloop := collectLoop_emits_bound r.startId r.endId r.env CONFIG.maxScrollAttempts 0 []
      (r.startId.isNone || r.startMounted) 0
    have htop := topLoop_bound r.topEnv CONFIG.maxScrollAttempts 0 r.topInit
    have h6 : min (15 : ℚ) (5 + (((0 : Nat) : ℚ) + 1)) = 6 := by norm_num
    refine ⟨⟨?_, hloop.1, ?_⟩, ?_⟩
    · split
      · rw [List.chain'_cons']
        refine ⟨?_, htop.1⟩
        intro y hy
        have hb := (htop.2 y (List.mem_of_mem_head? hy)).1
        rw [h6] at hb
        linarith
      · exact List.chain'_nil
    · intro x hx y hy
      have hy20 : (20 : ℚ) ≤ y :=
        le_trans (loopPct_lb 0) (hloop.2 y (List.mem_of_mem_head? hy)).1
      have hx15 : x ≤ (15 : ℚ) := by
        have hx' := List.mem_of_mem_getLast? hx
        revert hx'
        split
        · intro hx'
          rcases List.mem_cons.mp hx' with rfl | hx'
          · norm_num
          · exact (htop.2 x hx').2
        · intro hx'
          simp at hx'
      linarith
    · intro p hp
      rcases List.mem_append.mp hp with hp | hp
      · revert hp
        split
        · intro hp
          rcases List.mem_cons.mp hp with rfl | hp
          · norm_num
          · have hb := htop.2 p hp
            rw [h6] at hb
            constructor <;> linarith [hb.1, hb.2]
        · intro hp
          simp at hp
      · have hb := hloop.2 p hp
        have := loopPct_lb 0
        constructor <;> linarith [hb.1, hb.2]

lemma prefetchLoop_nil_emits (fetch : String → Option String) (fuel : Nat) (cache : ImageCache)
    (i len : Nat) : (prefetchLoop fetch fuel cache [] i len).2 = [] := by
  cases fuel <;> rfl

lemma prefetchPct_bound (i len : Nat) (h : i < len) :
    50 ≤ prefetchPct i len ∧ prefetchPct i len ≤ 79 := by
  unfold prefetchPct
  constructor
  · have h0 : (0 : ℚ) ≤ ((30 * i / len : Nat) : ℚ) := by positivity
    linarith
  · have hlt : 30 * i / len ≤ 29 := by
      have h1 : 30 * i / len < 30 := Nat.div_lt_of_lt_mul (by omega)
      omega
    have h2 : ((30 * i / len : Nat) : ℚ) ≤ 29 := by exact_mod_cast hlt
    linarith

/-- The batched image-prefetch phase emits percents in `[50, 79]`. -/
lemma prefetchLoop_emits_bound (fetch : String → Option String) :
    ∀ fuel cache (urls : List String) i len, i + urls.length ≤ len →
      ∀ p ∈ (prefetchLoop fetch fuel cache urls i len).2, 50 ≤ p ∧ p ≤ 79 := by
  intro fuel
  induction fuel with
  | zero =>
    intro cache urls i len _ p hp
    simp [prefetchLoop] at hp
  | succ n ih =>
    intro cache urls i len hlen p hp
    cases urls with
    | nil => simp [prefetchLoop] at hp
    | cons u rest =>
      rw [prefetchLoop] at hp
      dsimp only at hp
      rcases List.mem_cons.mp hp with rfl | hp
      · exact prefetchPct_bound i len (by simp at hlen; omega)
      · by_cases h10 : rest.length + 1 ≤ 10
        · have hdrop : (u :: rest).drop 10 = [] := by
            apply List.drop_eq_nil_of_le
            simpa using h10
          rw [hdrop, prefetchLoop_nil_emits] at hp
          simp at hp
        · refine ih _ _ _ _ ?_ p hp
          have hd : ((u :: rest).drop 10).length = rest.length + 1 - 10 := by simp
          rw [hd]
          simp only [List.length_cons] at hlen
          omega

/-- The per-batch phase-3 emissions lie in `[80, 99]`. -/
lemma phase3Emits_bound (total : Nat) : ∀ p ∈ phase3Emits total, 80 ≤ p ∧ p ≤ 99 := by
  intro p hp
  unfold phase3Emits at hp
  simp only [List.mem_map, List.mem_filter, List.mem_range, Bool.and_eq_true,
    decide_eq_true_eq] at hp
  obtain ⟨i, ⟨hi, _⟩, rfl⟩ := hp
  constructor
  · have h0 : (0 : ℚ) ≤ ((20 * i / total : Nat) : ℚ) := by positivity
    linarith
  · have hlt : 20 * i / total ≤ 19 := by
      have h1 : 20 * i / total < 20 := Nat.div_lt_of_lt_mul (by omega)
      omega
    have h2 : ((20 * i / total : Nat) : ℚ) ≤ 19 := by exact_mod_cast hlt
    linarith

/-- C9 counterexample: on a run that starts from the top and stops at an
end boundary on the first scan, the markdown exporter emits 10 and then
5 — the sequence sent to the progress sink is not monotonically
non-decreasing, because phase entry percents (10, 60) exceed the first
in-phase emissions that follow them (5, 50). -/
theorem claim_C9_counterexample :
    (exportToMarkdown endEnv).2 = [10, 5, 70, 90]
    ∧ ¬ List.Chain' (· ≤ ·) (exportToMarkdown endEnv).2 := by
  refine ⟨rfl, ?_⟩
  intro h
  rw [show (exportToMarkdown endEnv).2 = [10, 5, 70, 90] from rfl] at h
  have h10 := (List.chain'_cons.mp h).1
  norm_num at h10

/-- C9 as amended: within each phase the emitted percents are
monotonically non-decreasing — the collection phase (scroll-to-top
emissions followed by the main loop) emits a non-decreasing run for every
run environment — and every percent a full export run sends to the sink
lies in `[0, 100]`; monotonicity can fail only at a phase boundary,
where the fixed phase-entry percent may exceed the next phase's first
emission. -/
theorem claim_C9 :
    (∀ r : RunEnv, List.Chain' (· ≤ ·) (scrollAndCollectMessages r).emits)
    ∧ (∀ r : RunEnv, ∀ p ∈ (exportToMarkdown r).2, 0 ≤ p ∧ p ≤ 100)
    ∧ (∀ (fetch : String → Option String) (r : RunEnv), ∀ p ∈ (exportToPDF fetch r).2,
        0 ≤ p ∧ p ≤ 100) := by
  have hcol : ∀ (r : RunEnv) (p : ℚ), p ∈ (scrollAndCollectMessages r).emits →
      0 ≤ p ∧ p ≤ 100 := by
    intro r p hp
    have hb := (collect_emits_ok r).2 p hp
    constructor <;> linarith [hb.1, hb.2]
  refine ⟨fun r => (collect_emits_ok r).1, fun r p hp => ?_, fun fetch r p hp => ?_⟩
  · unfold exportToMarkdown at hp
    dsimp only at hp
    split at hp
    · rcases List.mem_cons.mp hp with rfl | hp
      · norm_num
      · exact hcol r p hp
    · split at hp
      · rcases List.mem_cons.mp hp with rfl | hp
        · norm_num
        · exact hcol r p hp
      · rcases List.mem_cons.mp hp with rfl | hp
        · norm_num
        · rcases List.mem_append.mp hp with hp | hp
          · exact hcol r p hp
          · rcases List.mem_cons.mp hp with rfl | hp
            · norm_num
            · rcases List.mem_cons.mp hp with rfl | hp
              · norm_num
              · simp at hp
  · unfold exportToPDF at hp
    dsimp only at hp
    split at hp
    · rcases List.mem_cons.mp hp with rfl | hp
      · norm_num
      · exact hcol r p hp
    · split at hp
      · rcases List.mem_cons.mp hp with rfl | hp
        · norm_num
        · exact hcol r p hp
      · unfold generatePDFContent at hp
        dsimp only at hp
        rcases List.mem_append.mp hp with hp | hp
        · rcases List.mem_append.mp hp with hp | hp
          · rcases List.mem_append.mp hp with hp | hp
            · rcases List.mem_cons.mp hp with rfl | hp
              · norm_num
              · exact hcol r p (by simpa using hp)
            · simp only [List.mem_singleton] at hp
              subst hp
              norm_num
          · rcases List.mem_append.mp hp with hp | hp
            · have hb := prefetchLoop_emits_bound _ _ _ _ 0 _ (by omega) p hp
              constructor <;> linarith [hb.1, hb.2]
            · have hb := phase3Emits_bound _ p hp
              constructor <;> linarith [hb.1, hb.2]
        · simp only [List.mem_singleton] at hp
          subst hp
          norm_num

/-- Witness for C9 at concrete inputs: the collection emits of a
both-boundaries run form a non-decreasing sequence, and the percents 10
(markdown) and 90 (PDF) emitted on the end-boundary run are in range. -/
theorem claim_C9_witness :
    List.Chain' (· ≤ ·) (scrollAndCollectMessages c4env).emits
    ∧ ((10 : ℚ) ∈ (exportToMarkdown endEnv).2 ∧ 0 ≤ (10 : ℚ) ∧ (10 : ℚ) ≤ 100)
    ∧ ((90 : ℚ) ∈ (exportToPDF (fun _ => none) endEnv).2
        ∧ 0 ≤ (90 : ℚ) ∧ (90 : ℚ) ≤ 100) := by
  have hm : (10 : ℚ) ∈ (exportToMarkdown endEnv).2 := by decide
  have hp : (90 : ℚ) ∈ (exportToPDF (fun _ => none) endEnv).2 := by decide
  exact ⟨claim_C9.1 c4env, ⟨hm, claim_C9.2.1 endEnv 10 hm⟩,
    ⟨hp, claim_C9.2.2 (fun _ => none) endEnv 90 hp⟩⟩



/-! Lemmas for the collection store: insert-if-absent semantics and the
preservation of store predicates through the scan loop, the main loop and
the fallback sweep. -/

lemma storeInsert_of_has (s : Store) (k : String) (d : Option MessageData)
    (h : storeHas s k = true) : storeInsert s k d = s := by
  simp [storeInsert, h]

lemma storeInsert_lookup_mono (s : Store) (k' : String) (d : Option MessageData)
    (k : String) (m : MessageData) (h : storeLookup s k = some m) :
    storeLookup (storeInsert s k' d) k = some m := by
  unfold storeInsert
  split
  · exact h
  · cases d with
    | none => exact h
    | some m' =>
      unfold storeLookup at h ⊢
      rw [List.find?_append]
      obtain ⟨e, he, rfl⟩ : ∃ e, s.find? (fun e => e.1 = k) = some e ∧ e.2 = m := by
        cases hf : s.find? (fun e => e.1 = k) with
        | none => simp [hf] at h
        | some e => exact ⟨e, rfl, by simpa [hf] using h⟩
      simp [he]

lemma storeInsert_wf (s : Store) (k : String) (d : Option MessageData)
    (hwf : (s.map (·.1)).Nodup ∧ ∀ e ∈ s, e.2.id = some e.1)
    (hd : ∀ m, d = some m → m.id = some k) :
    ((storeInsert s k d).map (·.1)).Nodup
      ∧ ∀ e ∈ storeInsert s k d, e.2.id = some e.1 := by
  unfold storeInsert
  split
  · exact hwf
  · rename_i hhas
    cases d with
    | none => exact hwf
    | some m =>
      constructor
      · rw [List.map_append, List.nodup_append]
        refine ⟨hwf.1, by simp, ?_⟩
        intro x hx
        simp only [List.map_cons, List.map_nil, List.mem_singleton]
        intro hk
        subst hk
        simp only [List.mem_map] at hx
        obtain ⟨e, he, hek⟩ := hx
        have : storeHas s x = true := by
          unfold storeHas
          rw [List.any_eq_true]
          exact ⟨e, he, by simp [hek]⟩
        simp_all
      · intro e he
        rcases List.mem_append.mp he with h1 | h1
        · exact hwf.2 e h1
        · simp only [List.mem_singleton] at h1
          subst h1
          exact hd m rfl

lemma processItems_pres (startId endId : Option String) (startIdx endIdx : Option Nat)
    (P : Store → Prop) :
    ∀ (items : List ScanItem),
      (∀ st it, it ∈ items → ∀ mid, it.mid = some mid → P st → P (storeInsert st mid it.data)) →
      ∀ j store fs, P store →
        P (processItems startId endId startIdx endIdx items j store fs).store := by
  intro items
  induction items with
  | nil => intro _ j store fs h; exact h
  | cons it rest ih =>
    intro hP j store fs h
    have hPr : ∀ st it', it' ∈ rest → ∀ mid, it'.mid = some mid →
        P st → P (storeInsert st mid it'.data) :=
      fun st it' hm => hP st it' (List.mem_cons_of_mem _ hm)
    have hPi : ∀ st mid, it.mid = some mid → P st → P (storeInsert st mid it.data) :=
      fun st mid hm => hP st it (List.mem_cons_self _ _) mid hm
    obtain ⟨mid, data⟩ := it
    cases mid with
    | none =>
      simp only [processItems]
      exact ih hPr (j + 1) store fs h
    | some mid =>
      simp only [processItems]
      split
      · exact hPi store mid rfl h
      · split
        · exact h
        · cases startId with
          | none => exact ih hPr (j + 1) _ fs (hPi store mid rfl h)
          | some s =>
            dsimp only
            split
            · exact ih hPr (j + 1) _ true (hPi store mid rfl h)
            · cases startIdx with
              | some kk =>
                dsimp only
                split
                · exact ih hPr (j + 1) store fs h
                · exact ih hPr (j + 1) _ fs (hPi store mid rfl h)
              | none =>
                dsimp only
                split
                · exact ih hPr (j + 1) _ fs (hPi store mid rfl h)
                · exact ih hPr (j + 1) store fs h

lemma collectLoop_pres (startId endId : Option String) (env : Nat → IterEnv)
    (P : Store → Prop)
    (hP : ∀ st n it, it ∈ (env n).items → ∀ mid, it.mid = some mid →
      P st → P (storeInsert st mid it.data)) :
    ∀ fuel a store fs nc, P store →
      P (collectLoop startId endId env fuel a store fs nc).store := by
  intro fuel
  induction fuel with
  | zero => intro a store fs nc h; exact h
  | succ n ih =>
    intro a store fs nc h
    rw [collectLoop]
    dsimp only
    have hscan := processItems_pres startId endId
      (startId.bind fun s => idIndex (env a).items s)
      (endId.bind fun s => idIndex (env a).items s) P (env a).items
      (fun st it hm => hP st a it hm) 0 store fs h
    split
    · exact hscan
    · split
      · exact hscan
      · exact ih (a + 1) _ _ _ hscan

lemma sweepInsert_pres (P : Store → Prop) (items : List ScanItem)
    (hP : ∀ st it, it ∈ items → ∀ mid, it.mid = some mid →
      P st → P (storeInsert st mid it.data)) :
    ∀ store, P store → P (sweepInsert store items) := by
  induction items with
  | nil => intro store h; exact h
  | cons it rest ih =>
    intro store h
    have hPr : ∀ st it', it' ∈ rest → ∀ mid, it'.mid = some mid →
        P st → P (storeInsert st mid it'.data) :=
      fun st it' hm => hP st it' (List.mem_cons_of_mem _ hm)
    unfold sweepInsert at ih ⊢
    simp only [List.foldl_cons]
    cases hm : it.mid with
    | none => exact ih hPr _ h
    | some mid => exact ih hPr _ (hP store it (List.mem_cons_self _ _) mid hm h)

/-- C1 counterexample: the element of id `chat-messages-1` is encountered
in more than one scan iteration; its first encounter's extraction yields
null, and the run's returned record for that id is the one extracted at
the second encounter — the later duplicate is not ignored and the record
kept is not the one extracted at the first encounter. -/
theorem claim_C1_counterexample :
    (c1env.env 0).items = [⟨some "chat-messages-1", none⟩]
    ∧ (c1env.env 1).items = [⟨some "chat-messages-1", some msgLate⟩]
    ∧ (scrollAndCollectMessages c1env).result = .ok [msgLate] := by
  exact ⟨rfl, rfl, rfl⟩

/-- C1 as amended: the returned sequence never contains two records with
the same id (for any well-formed run); an encounter of an id already in
the store is ignored (insert-if-absent leaves the store unchanged, so a
stored record is never replaced); hence the record kept for an id is the
one produced by the first encounter whose extraction yielded a record —
an encounter extracting null stores nothing, and a later encounter may
then supply the record. -/
theorem claim_C1 :
    (∀ s k d, storeHas s k = true → storeInsert s k d = s)
    ∧ (∀ startId endId env fuel a store fs nc k m,
        storeLookup store k = some m →
        storeLookup (collectLoop startId endId env fuel a store fs nc).store k = some m)
    ∧ (∀ r messages, WellFormedRun r → (scrollAndCollectMessages r).result = .ok messages →
        (messages.map (·.id)).Nodup) := by
  refine ⟨storeInsert_of_has, ?_, ?_⟩
  · intro startId endId env fuel a store fs nc k m h
    exact collectLoop_pres startId endId env (fun st => storeLookup st k = some m)
      (fun st n it _ mid _ hst => storeInsert_lookup_mono st mid it.data k m hst)
      fuel a store fs nc h
  · intro r messages hwf hres
    unfold scrollAndCollectMessages at hres
    revert hres
    split
    · intro hres; simp at hres
    · dsimp only
      intro hres
      simp only [Except.ok.injEq] at hres
      set store :=
        (if r.startId.isSome
            && !(collectLoop r.startId r.endId r.env CONFIG.maxScrollAttempts 0 []
              (r.startId.isNone || r.startMounted) 0).foundStart then
          sweepInsert (collectLoop r.startId r.endId r.env CONFIG.maxScrollAttempts 0 []
            (r.startId.isNone || r.startMounted) 0).store r.finalItems
        else (collectLoop r.startId r.endId r.env CONFIG.maxScrollAttempts 0 []
          (r.startId.isNone || r.startMounted) 0).store) with hstore
      have hwfs : (store.map (·.1)).Nodup ∧ ∀ e ∈ store, e.2.id = some e.1 := by
        rw [hstore]
        have base := collectLoop_pres r.startId r.endId r.env
          (fun st => (st.map (·.1)).Nodup ∧ ∀ e ∈ st, e.2.id = some e.1)
          (fun st n it hm mid hmid hst =>
            storeInsert_wf st mid it.data hst
              (fun m hm2 => by rw [hwf.1 n it m hm hm2, hmid]))
          CONFIG.maxScrollAttempts 0 [] (r.startId.isNone || r.startMounted) 0
          (by simp)
        split
        · exact sweepInsert_pres _ r.finalItems
            (fun st it hm mid hmid hst =>
              storeInsert_wf st mid it.data hst
                (fun m hm2 => by rw [hwf.2 it m hm hm2, hmid])) _ base
        · exact base
      rw [← hres]
      have : (store.map (·.2)).map (·.id) = (store.map (·.1)).map some := by
        simp only [List.map_map]
        exact List.map_congr_left (fun e he => hwfs.2 e he)
      rw [this]
      exact hwfs.1.map (fun a b => by simp)

/-- Witness for C1 at concrete inputs: a duplicate insert is ignored, a
stored binding persists through a run of the loop, and a concrete
well-formed run returns records with distinct ids. -/
theorem claim_C1_witness :
    storeInsert [("chat-messages-a", msgA)] "chat-messages-a" (some msgB)
      = [("chat-messages-a", msgA)]
    ∧ storeLookup (collectLoop none none c1env.env CONFIG.maxScrollAttempts 0
        [("chat-messages-x", msgB)] true 0).store "chat-messages-x" = some msgB
    ∧ ([msgLate].map (fun m => m.id)).Nodup := by
  refine ⟨claim_C1.1 _ _ _ (by decide), claim_C1.2.1 none none c1env.env
    CONFIG.maxScrollAttempts 0 [("chat-messages-x", msgB)] true 0 "chat-messages-x" msgB
    (by decide), claim_C1.2.2 c1env [msgLate] ?_ rfl⟩
  constructor
  · intro n it m hit hdata
    revert hit
    match n with
    | 0 => intro hit; simp [c1env] at hit; simp [hit] at hdata
    | k + 1 =>
      intro hit
      simp [c1env] at hit
      rw [hit] at hdata
      simp only [Option.some.injEq] at hdata
      rw [← hdata, hit]
      rfl
  · intro it m hit
    simp [c1env] at hit


end DiscordExport
